import Mathlib

/-!
# range_sensor_layer: a shallow embedding of `range_sensor_layer.cpp`

Conventions of the embedding.

* A finite `double`/`float` is a rational number, and the arithmetic on finite
  values is exact rational arithmetic (no rounding), with two exceptions where
  the rounding decides the result: the `float` sum of `syncCB` (`Flt.add`) and
  the second model `gamma_double` of `gamma` round each operation with
  `roundSig` (round to nearest, ties to even).  The fields of a reading that
  the code tests for infinities are values of `Flt`, which adds the two
  infinities and NaN.
* A division whose divisor is zero has no finite value; it is modelled by
  `fdiv`, which returns `none`, and the functions that divide return an
  `Option`.
* `unsigned char` cells are natural numbers; `unsigned int` indices are natural
  numbers reduced modulo `2 ^ 32`; `size_t` is reduced modulo `2 ^ 64`.
* Arrays reached through raw pointers (`costmap_`, the master char map) are
  total maps from the index to the cell value.
* Functions of libm, of `angles`, of `costmap_2d` and of the layer's header
  are fields of `Env`.
-/

namespace range_sensor_layer

/-! ## Cost values of `costmap_2d` -/

/-- The value `costmap_2d::NO_INFORMATION`. -/
def NO_INFORMATION : Nat := 255

/-- The value `costmap_2d::LETHAL_OBSTACLE`. -/
def LETHAL_OBSTACLE : Nat := 254

/-- The value `costmap_2d::FREE_SPACE`. -/
def FREE_SPACE : Nat := 0

/-! ## Rounding of floating-point operations -/

/-- The power `2 ^ z` of an integer exponent, as a rational. -/
def pow2 (z : Int) : ℚ :=
  if 0 ≤ z then ((2 ^ z.toNat : Nat) : ℚ) else 1 / ((2 ^ (-z).toNat : Nat) : ℚ)

/-- The integer nearest to `q`, the even one of the two when `q` lies halfway. -/
def roundNearestEven (q : ℚ) : Int :=
  let f := ⌊q⌋
  let d := q - f
  if d < 1 / 2 then f else if 1 / 2 < d then f + 1 else if f % 2 = 0 then f else f + 1

/-- The loop of `ilog2`, at most `fuel` halvings. -/
def ilog2_loop : Nat → Nat → Nat
  | 0, _ => 0
  | fuel + 1, n => if 2 ≤ n then ilog2_loop fuel (n / 2) + 1 else 0

/-- The position of the leading bit of `n`: the largest `k` with `2 ^ k <= n`
(0 for `n = 0`). -/
def ilog2 (n : Nat) : Nat := ilog2_loop n n

/-- The exponent `e` of a rational `q` other than 0: `2 ^ e <= |q| < 2 ^ (e + 1)`. -/
def binade (q : ℚ) : Int :=
  let e0 : Int := (ilog2 q.num.natAbs : Int) - (ilog2 q.den : Int)
  if pow2 e0 ≤ |q| then e0 else e0 - 1

/-- The value `q` rounded to a significand of `p` bits, to nearest with ties to
even (the default rounding of IEEE 754 arithmetic).  The exponent is not
bounded: overflow and subnormal numbers are not modelled here. -/
def roundSig (p : Nat) (q : ℚ) : ℚ :=
  if q = 0 then 0
  else
    let ulp := pow2 (binade q - (p : Int) + 1)
    (roundNearestEven (q / ulp) : ℚ) * ulp

/-- The rounding of a `float` operation (24-bit significand). -/
def roundFloat (q : ℚ) : ℚ := roundSig 24 q

/-- The rounding of a `double` operation (53-bit significand). -/
def roundDouble (q : ℚ) : ℚ := roundSig 53 q

/-- The largest finite `float`, `(2 ^ 24 - 1) * 2 ^ 104`. -/
def FLT_MAX : ℚ := 340282346638528859811704183484516925440

/-- The constant `const float TRUST_DISTANCE = 0.65` of the source file: the
`float` nearest to 0.65. -/
def TRUST_DISTANCE : ℚ := 5452595 / 8388608

/-- The constant `const float CLOSE_DISTANCE = 0.2` of the source file: the
`float` nearest to 0.2. -/
def CLOSE_DISTANCE : ℚ := 13421773 / 67108864

/-! ## Floating-point values with infinities -/

/-- A `float` of a message: a finite value, one of the infinities, or NaN. -/
inductive Flt where
  | negInf : Flt
  | fin (q : ℚ) : Flt
  | posInf : Flt
  | nan : Flt
deriving DecidableEq

namespace Flt

/-- The test `isinf(x)`. -/
def isinf : Flt → Bool
  | negInf => true
  | posInf => true
  | fin _ => false
  | nan => false

/-- The test `std::isfinite(x)`. -/
def isfinite : Flt → Bool
  | fin _ => true
  | negInf => false
  | posInf => false
  | nan => false

/-- The comparison `a < b`; false as soon as one side is NaN. -/
def lt : Flt → Flt → Bool
  | nan, _ => false
  | _, nan => false
  | negInf, negInf => false
  | negInf, fin _ => true
  | negInf, posInf => true
  | fin _, negInf => false
  | fin a, fin b => decide (a < b)
  | fin _, posInf => true
  | posInf, _ => false

/-- The comparison `a == b`; false as soon as one side is NaN. -/
def eq : Flt → Flt → Bool
  | negInf, negInf => true
  | posInf, posInf => true
  | fin a, fin b => decide (a = b)
  | _, _ => false

/-- The comparison `a <= b`. -/
def le (a b : Flt) : Bool := lt a b || eq a b

/-- The comparison `a > b`. -/
def gt (a b : Flt) : Bool := lt b a

/-- The comparison `a >= b`. -/
def ge (a b : Flt) : Bool := le b a

/-- The `float` sum `a + b`: the exact sum of two finite values is rounded to
a `float`, and is an infinity when the rounded value is beyond `FLT_MAX`. -/
def add : Flt → Flt → Flt
  | nan, _ => nan
  | _, nan => nan
  | negInf, posInf => nan
  | posInf, negInf => nan
  | negInf, _ => negInf
  | _, negInf => negInf
  | posInf, _ => posInf
  | _, posInf => posInf
  | fin a, fin b =>
    let s := roundFloat (a + b)
    if s > FLT_MAX then posInf else if s < -FLT_MAX then negInf else fin s

end Flt

/-- The quotient `a / b` of two finite values, `none` when `b` is zero (the
quotient is then an infinity or NaN). -/
def fdiv (a b : ℚ) : Option ℚ := if b = 0 then none else some (a / b)

/-! ## Messages and the layer -/

/-- The fields of `sensor_msgs::Range` the layer reads. -/
structure Range where
  stamp : ℚ
  frame_id : String
  field_of_view : ℚ
  min_range : Flt
  max_range : Flt
  range : Flt

/-- The fields of `sensor_msgs::LaserScan` the layer reads. -/
structure LaserScan where
  stamp : ℚ
  ranges : Array Flt

/-- The master grid handed to `updateCosts`: `getSizeInCellsX()` and the
array behind `getCharMap()`. -/
structure Costmap2D where
  size_x_ : Nat
  size_y_ : Nat
  costmap_ : Nat → Nat

/-- The member variables of `RangeSensorLayer` (its own and the inherited
`Costmap2D` and `Layer` ones) that the source file reads or writes. -/
structure RangeSensorLayer where
  enabled_ : Bool
  current_ : Bool
  fusion : Bool
  buffered_readings_ : Nat
  last_reading_time_ : ℚ
  default_value_ : Nat
  min_x_ : ℚ
  min_y_ : ℚ
  max_x_ : ℚ
  max_y_ : ℚ
  clear_on_max_reading_ : Bool
  phi_v_ : ℚ
  max_angle_ : ℚ
  no_readings_timeout_ : ℚ
  mark_threshold_ : ℚ
  clear_threshold_ : ℚ
  size_x_ : Nat
  size_y_ : Nat
  resolution_ : ℚ
  origin_x_ : ℚ
  origin_y_ : ℚ
  costmap_ : Nat → Nat
  range_msgs_buffer_ : List Range
  scan_msgs_ : LaserScan

/-- The functions the source file calls and does not define: `tanh`, `atan2`
and `sqrt` of libm, `angles::normalize_angle`, `worldToMap` of `costmap_2d`,
and `to_prob` and `to_cost` of the layer's header. -/
structure Env where
  tanh : ℚ → ℚ
  atan2 : ℚ → ℚ → ℚ
  sqrt : ℚ → ℚ
  normalize_angle : ℚ → ℚ
  worldToMap : RangeSensorLayer → ℚ → ℚ → Option (Nat × Nat)
  to_prob : Nat → ℚ
  to_cost : ℚ → Nat

/-- The type of the per-reading grid update
`updateCostmap(range_message, clear_sensor_cone)` as its callers see it. -/
abbrev GridUpdate : Type := RangeSensorLayer → Range → Bool → RangeSensorLayer

/-- The index `getIndex(mx, my)` of a cell in the char map. -/
def getIndex (L : RangeSensorLayer) (mx my : Nat) : Nat := my * L.size_x_ + mx

/-- The stored value `getCost(mx, my)`. -/
def getCost (L : RangeSensorLayer) (mx my : Nat) : Nat := L.costmap_ (getIndex L mx my)

/-- The layer after `setCost(mx, my, cost)`. -/
def setCost (L : RangeSensorLayer) (mx my cost : Nat) : RangeSensorLayer :=
  { L with costmap_ := fun k => if k = getIndex L mx my then cost else L.costmap_ k }

/-! ## The sensor model -/

/-- The function `RangeSensorLayer::gamma`. -/
def gamma (L : RangeSensorLayer) (theta : ℚ) : Option ℚ :=
  if |theta| > L.max_angle_ then some 0
  else (fdiv theta L.max_angle_).map fun q => 1 - q ^ 2

/-- The function `RangeSensorLayer::gamma` with the rounding of its three
`double` operations: the quotient `theta/max_angle_`, the square `pow(., 2)`
(taken as the correctly rounded product) and the difference from 1. -/
def gamma_double (L : RangeSensorLayer) (theta : ℚ) : Option ℚ :=
  if |theta| > L.max_angle_ then some 0
  else (fdiv theta L.max_angle_).map fun q =>
    roundDouble (1 - roundDouble (roundDouble q ^ 2))

/-- The function `RangeSensorLayer::delta`. -/
def delta (E : Env) (L : RangeSensorLayer) (phi : ℚ) : ℚ :=
  1 - (1 + E.tanh (2 * (phi - L.phi_v_))) / 2

/-- The function `RangeSensorLayer::sensor_model`.  The product `lbda` is NaN
when `gamma` is; the last branch returns `0.5` without reading it. -/
def sensor_model (E : Env) (L : RangeSensorLayer) (r phi theta : ℚ) : Option ℚ :=
  let lbda : Option ℚ := (gamma L theta).map fun g => delta E L phi * g
  let delta := L.resolution_
  if phi ≥ 0 ∧ phi < r - 2 * delta * r then
    lbda.map fun l => (1 - l) * (1 / 2)
  else if phi < r - delta * r then
    lbda.bind fun l =>
      (fdiv (phi - (r - 2 * delta * r)) (delta * r)).map fun q =>
        l * (1 / 2) * q ^ 2 + (1 - l) * (1 / 2)
  else if phi < r + delta * r then
    lbda.bind fun l =>
      (fdiv (r - phi) (delta * r)).map fun J =>
        l * ((1 - (1 / 2) * J ^ 2) - 1 / 2) + 1 / 2
  else
    some (1 / 2)

/-! ## The Bayes update of one cell -/

/-- The local `new_prob` of `update_cell`, from the locals `sensor` and
`prior`: `prob_occ / (prob_occ + prob_not)`. -/
def new_prob (sensor prior : ℚ) : Option ℚ :=
  let prob_occ := sensor * prior
  let prob_not := (1 - sensor) * (1 - prior)
  fdiv prob_occ (prob_occ + prob_not)

/-- The function `RangeSensorLayer::update_cell`.  The result is `none` when
`new_prob` has no finite value: the cast `to_cost(new_prob)` is then applied
to an infinity or NaN. -/
def update_cell (E : Env) (L : RangeSensorLayer) (ox oy ot r nx ny : ℚ) (clear : Bool) :
    Option RangeSensorLayer :=
  match E.worldToMap L nx ny with
  | none => some L
  | some (x, y) =>
    let dx := nx - ox
    let dy := ny - oy
    let theta := E.normalize_angle (E.atan2 dy dx - ot)
    let phi := E.sqrt (dx * dx + dy * dy)
    if clear = true ∧ |theta| > L.max_angle_ then some L
    else
      let sensor : Option ℚ := if clear = false then sensor_model E L r phi theta else some 0
      sensor.bind fun s =>
        let prior := E.to_prob (getCost L x y)
        (new_prob s prior).map fun p => setCost L x y (E.to_cost p)

/-! ## Classification of readings -/

/-- The loop of `syncCB` over `n` samples from index `i` on: `true` when it
leaves through `fusion = true; return`, `false` when it runs to its end. -/
def syncCB_loop (ranges : Array Flt) (range : Flt) : Nat → Nat → Bool
  | 0, _ => false
  | n + 1, i =>
    let scan_data := ranges.getD i Flt.nan
    if scan_data.isfinite = false then syncCB_loop ranges range n (i + 1)
    else if Flt.lt scan_data (Flt.add range (Flt.fin TRUST_DISTANCE)) = true then true
    else syncCB_loop ranges range n (i + 1)

/-- The three reads `scan_message.ranges[raduis_center]`,
`scan_message.ranges[raduis_start]` and `scan_message.ranges[raduis_stop]` that
`syncCB` makes for its logging statements are inside the array.  Where they
are not, the behaviour of `syncCB` is undefined. -/
def syncCB_reads_in_bounds (L : RangeSensorLayer) : Bool :=
  let scan_message := L.scan_msgs_
  let raduis_start := (scan_message.ranges.size / 2 + 2 ^ 64 - 50) % 2 ^ 64
  let raduis_stop := (scan_message.ranges.size / 2 + 50) % 2 ^ 64
  let raduis_center := scan_message.ranges.size / 2
  decide (raduis_center < scan_message.ranges.size ∧ raduis_start < scan_message.ranges.size
    ∧ raduis_stop < scan_message.ranges.size)

/-- The function `RangeSensorLayer::syncCB` on a scan for which
`syncCB_reads_in_bounds` holds: the value of `fusion` its loop leaves.  The
logging statements have no other effect; on a scan for which their reads are
outside the array the code is undefined and this function says nothing about
it.  The bounds are `size_t` values: `size/2 - 50` wraps around below zero. -/
def syncCB (L : RangeSensorLayer) (range_message : Range) : RangeSensorLayer :=
  let scan_message := L.scan_msgs_
  let raduis_start := (scan_message.ranges.size / 2 + 2 ^ 64 - 50) % 2 ^ 64
  let raduis_stop := (scan_message.ranges.size / 2 + 50) % 2 ^ 64
  let count := raduis_stop - raduis_start
  { L with fusion := syncCB_loop scan_message.ranges range_message.range count raduis_start }

/-- The function `RangeSensorLayer::processFixedRangeMsg`. -/
def processFixedRangeMsg (updateCostmap : GridUpdate) (L : RangeSensorLayer)
    (range_message : Range) : RangeSensorLayer :=
  if range_message.range.isinf = false then L
  else
    let clear_sensor_cone := false
    if Flt.gt range_message.range (Flt.fin 0) = true then
      if L.clear_on_max_reading_ = false then L
      else updateCostmap L { range_message with range := range_message.min_range } true
    else
      updateCostmap L { range_message with range := range_message.min_range } clear_sensor_cone

/-- The function `RangeSensorLayer::processVariableRangeMsg` (logging left
out). -/
def processVariableRangeMsg (updateCostmap : GridUpdate) (L : RangeSensorLayer)
    (range_message : Range) : RangeSensorLayer :=
  if Flt.le range_message.range range_message.min_range = true then L
  else
    let L1 := syncCB L range_message
    let clear_sensor_cone : Bool :=
      if Flt.ge range_message.range range_message.max_range = true ∨ L1.fusion = true then true
      else false
    updateCostmap L1 range_message clear_sensor_cone

/-- The function `RangeSensorLayer::processRangeMsg`. -/
def processRangeMsg (updateCostmap : GridUpdate) (L : RangeSensorLayer)
    (range_message : Range) : RangeSensorLayer :=
  if Flt.eq range_message.min_range range_message.max_range = true then
    processFixedRangeMsg updateCostmap L range_message
  else
    processVariableRangeMsg updateCostmap L range_message

/-- The values of `InputSensorType`. -/
inductive InputSensorType where
  | VARIABLE : InputSensorType
  | FIXED : InputSensorType
  | ALL : InputSensorType
deriving DecidableEq

/-- The function bound to `processRangeMessageFunc_` in `onInitialize`. -/
def processRangeMessageFunc_ (input_sensor_type : InputSensorType)
    (updateCostmap : GridUpdate) : RangeSensorLayer → Range → RangeSensorLayer :=
  match input_sensor_type with
  | InputSensorType.VARIABLE => processVariableRangeMsg updateCostmap
  | InputSensorType.FIXED => processFixedRangeMsg updateCostmap
  | InputSensorType.ALL => processRangeMsg updateCostmap

/-! ## Merging into the master grid -/

/-- One pass of the body of the inner loop of `updateCosts` at index `it`. -/
def updateCosts_cell (costmap_ : Nat → Nat) (clear mark it : Nat) (master_array : Nat → Nat) :
    Nat → Nat :=
  let prob := costmap_ it
  if prob = NO_INFORMATION then master_array
  else if prob > mark then
    let current := LETHAL_OBSTACLE
    let old_cost := master_array it
    if old_cost = NO_INFORMATION ∨ old_cost < current then
      fun k => if k = it then current else master_array k
    else master_array
  else if prob < clear then
    let current := FREE_SPACE
    let old_cost := master_array it
    if old_cost = NO_INFORMATION ∨ old_cost < current then
      fun k => if k = it then current else master_array k
    else master_array
  else master_array

/-- The inner loop of `updateCosts`: `n` passes, the `unsigned int` index
`it` incremented after each. -/
def updateCosts_row (costmap_ : Nat → Nat) (clear mark : Nat) :
    Nat → Nat → (Nat → Nat) → (Nat → Nat)
  | 0, _, master_array => master_array
  | n + 1, it, master_array =>
    updateCosts_row costmap_ clear mark n ((it + 1) % 2 ^ 32)
      (updateCosts_cell costmap_ clear mark it master_array)

/-- The outer loop of `updateCosts`: `n` rows from row `j` on, each starting
at the `unsigned int` index `j * span + min_i`. -/
def updateCosts_rows (costmap_ : Nat → Nat) (clear mark span : Nat) (min_i max_i : Int) :
    Nat → Int → (Nat → Nat) → (Nat → Nat)
  | 0, _, master_array => master_array
  | n + 1, j, master_array =>
    let it := ((j * (span : Int) + min_i) % 2 ^ 32).toNat
    updateCosts_rows costmap_ clear mark span min_i max_i n (j + 1)
      (updateCosts_row costmap_ clear mark (max_i - min_i).toNat it master_array)

/-- The function `RangeSensorLayer::updateCosts`: the layer and the master
grid after the call. -/
def updateCosts (E : Env) (L : RangeSensorLayer) (master_grid : Costmap2D)
    (min_i min_j max_i max_j : Int) : RangeSensorLayer × Costmap2D :=
  if L.enabled_ = false then (L, master_grid)
  else
    let span := master_grid.size_x_
    let clear := E.to_cost L.clear_threshold_
    let mark := E.to_cost L.mark_threshold_
    let rows := (max_j - min_j).toNat
    let master_array :=
      updateCosts_rows L.costmap_ clear mark span min_i max_i rows min_j master_grid.costmap_
    ({ L with buffered_readings_ := 0, current_ := true },
     { master_grid with costmap_ := master_array })

/-! ## Further external functions and the configuration -/

/-- The value `std::numeric_limits<double>::max()`. -/
def DBL_MAX : ℚ := 2 ^ 1024 - 2 ^ 971

/-- The value `std::numeric_limits<double>::min()`: the smallest positive
normalised `double`, `2 ^ (-1022)`. -/
def DBL_MIN : ℚ := 1 / 2 ^ 1022

/-- The fields of the generated `RangeSensorLayerConfig`: those that
`reconfigureCB` reads, and `clear_threshold`, which the configuration also
carries. -/
structure RangeSensorLayerConfig where
  phi : ℚ
  max_angle : ℚ
  no_readings_timeout : ℚ
  mark_threshold : ℚ
  clear_threshold : ℚ
  clear_on_max_reading : Bool
  enabled : Bool

/-- What the per-reading update and `updateBounds` take from outside the
source file at the time of a call: `waitForTransform` and `transformPoint` of
tf (for a frame, a stamp and a point `(x, 0, 0)`, the world `x` and `y`), `sin`
and `cos` of libm, `worldToMapNoBounds`, `mapToWorld`, `getSizeInMetersX/Y` and
`updateOrigin` of `costmap_2d` (the last returns the new char map and origin),
the resolution of the master costmap, `isRolling()` and `ros::Time::now()`. -/
structure Ext where
  waitForTransform : String → ℚ → Bool
  transformPoint : String → ℚ → ℚ → ℚ × ℚ
  sin : ℚ → ℚ
  cos : ℚ → ℚ
  worldToMapNoBounds : RangeSensorLayer → ℚ → ℚ → Int × Int
  mapToWorld : RangeSensorLayer → Nat → Nat → ℚ × ℚ
  getSizeInMetersX : RangeSensorLayer → ℚ
  getSizeInMetersY : RangeSensorLayer → ℚ
  updateOrigin : RangeSensorLayer → ℚ → ℚ → (Nat → Nat) × ℚ × ℚ
  getResolution : ℚ
  isRolling : Bool
  now : ℚ

/-- The conversion of an `int` to `unsigned int`. -/
def toUInt32 (z : Int) : Nat := (z % 2 ^ 32).toNat

/-- The conversion `(int)n` of an `unsigned int`. -/
def toInt32 (n : Nat) : Int := ((n : Int) + 2 ^ 31) % 2 ^ 32 - 2 ^ 31

/-- The function `touch` of `costmap_2d`, applied to the layer's own
`min_x_`, `min_y_`, `max_x_`, `max_y_`. -/
def touch (L : RangeSensorLayer) (x y : ℚ) : RangeSensorLayer :=
  { L with
    min_x_ := min x L.min_x_
    min_y_ := min y L.min_y_
    max_x_ := max x L.max_x_
    max_y_ := max y L.max_y_ }

/-- The call `setCost(a, b, cost)` with `int` arguments: they are converted to
`unsigned int`, and the index `my * size_x_ + mx` is an `unsigned int`. -/
def setCost_int (L : RangeSensorLayer) (a b : Int) (cost : Nat) : RangeSensorLayer :=
  let mx := toUInt32 a
  let my := toUInt32 b
  { L with costmap_ := fun k => if k = (my * L.size_x_ + mx) % 2 ^ 32 then cost else L.costmap_ k }

/-! ## Reconfiguration, buffering and reset -/

/-- The function `RangeSensorLayer::reconfigureCB`. -/
def reconfigureCB (L : RangeSensorLayer) (config : RangeSensorLayerConfig) : RangeSensorLayer :=
  let L1 : RangeSensorLayer :=
    { L with
      phi_v_ := config.phi
      max_angle_ := config.max_angle
      no_readings_timeout_ := config.no_readings_timeout
      mark_threshold_ := config.mark_threshold
      clear_on_max_reading_ := config.clear_on_max_reading }
  if L1.enabled_ ≠ config.enabled then
    { L1 with enabled_ := config.enabled, current_ := false }
  else L1

/-- The function `RangeSensorLayer::bufferIncomingRangeMsg`. -/
def bufferIncomingRangeMsg (L : RangeSensorLayer) (range_message : Range) : RangeSensorLayer :=
  { L with range_msgs_buffer_ := L.range_msgs_buffer_ ++ [range_message] }

/-- The function `RangeSensorLayer::updateCostmap()` without arguments: the
buffer is copied and cleared, then `processRangeMessageFunc_` (here `process`)
is called on each element of the copy from `begin()` to `end()`. -/
def updateCostmap (process : RangeSensorLayer → Range → RangeSensorLayer)
    (L : RangeSensorLayer) : RangeSensorLayer :=
  let range_msgs_buffer_copy := L.range_msgs_buffer_
  let L1 : RangeSensorLayer := { L with range_msgs_buffer_ := [] }
  range_msgs_buffer_copy.foldl process L1

/-- The function `RangeSensorLayer::deactivate`. -/
def deactivate (L : RangeSensorLayer) : RangeSensorLayer :=
  { L with range_msgs_buffer_ := [] }

/-- The function `RangeSensorLayer::activate`. -/
def activate (L : RangeSensorLayer) : RangeSensorLayer :=
  { L with range_msgs_buffer_ := [] }

/-- The function `resetMaps` of `costmap_2d`: the `size_x_ * size_y_` cells
of the char map are set to `default_value_`. -/
def resetMaps (L : RangeSensorLayer) : RangeSensorLayer :=
  { L with costmap_ := fun k => if k < L.size_x_ * L.size_y_ then L.default_value_
                                else L.costmap_ k }

/-- The function `RangeSensorLayer::reset`. -/
def reset (L : RangeSensorLayer) : RangeSensorLayer :=
  let L1 := resetMaps (deactivate L)
  let L2 : RangeSensorLayer := { L1 with current_ := true }
  activate L2

/-! ## The update of the grid by one reading -/

/-- The step "Update Map with Target Point" of `updateCostmap(range_message,
clear_sensor_cone)`. -/
def updateCostmap_target (E : Env) (L : RangeSensorLayer) (tx ty : ℚ) : RangeSensorLayer :=
  match E.worldToMap L tx ty with
  | some (aa, ab) => touch (setCost L aa ab 233) tx ty
  | none => L

/-- The loop `for (double r = -1.0 * radius; r < radius; r += res)` of the
per-reading update, entered with the current `r`; `none` when `fuel` passes
do not reach its end. -/
def updateCostmap_line (X : Ext) (tx ty theta radius res : ℚ) :
    Nat → ℚ → RangeSensorLayer → Option RangeSensorLayer
  | 0, r, L => if r < radius then none else some L
  | fuel + 1, r, L =>
    if r < radius then
      let mx := tx - r * X.sin theta
      let my := ty + r * X.cos theta
      let ab := X.worldToMapNoBounds L mx my
      updateCostmap_line X tx ty theta radius res fuel (r + res) (setCost_int L ab.1 ab.2 233)
    else some L

/-- The locals of the per-reading update when it reaches its cell loop: the
layer, the world origin of the beam, its heading, and the limited bounds. -/
structure Cone where
  L : RangeSensorLayer
  ox : ℚ
  oy : ℚ
  theta : ℚ
  bx0 : Int
  by0 : Int
  bx1 : Int
  by1 : Int

/-- The step "Limit Bounds to Grid" of the per-reading update. -/
def updateCostmap_limit (L : RangeSensorLayer) (bx0 by0 bx1 by1 : Int) :
    Int × Int × Int × Int :=
  (max 0 bx0, max 0 by0, min (toInt32 L.size_x_) bx1, min (toInt32 L.size_y_) by1)

/-- The per-reading update from the transform of the origin to "Limit Bounds
to Grid", for a finite `range`; `none` when the marking loop does not end
within `fuel` passes. -/
def updateCostmap_cone (E : Env) (X : Ext) (fuel : Nat) (L : RangeSensorLayer)
    (range_message : Range) (range : ℚ) : Option Cone :=
  let o := X.transformPoint range_message.frame_id range_message.stamp 0
  let ox := o.1
  let oy := o.2
  let t := X.transformPoint range_message.frame_id range_message.stamp range
  let tx := t.1
  let ty := t.2
  let dx := tx - ox
  let dy := ty - oy
  let theta := E.atan2 dy dx
  let d := E.sqrt (dx * dx + dy * dy)
  let b0 := X.worldToMapNoBounds L ox oy
  let L1 := touch L ox oy
  let L2 := updateCostmap_target E L1 tx ty
  let res := X.getResolution
  let radius := d * E.tanh L.max_angle_
  let L3 : Option RangeSensorLayer :=
    if Flt.ge (Flt.fin range) (Flt.fin CLOSE_DISTANCE) = true
        ∧ Flt.lt (Flt.fin range) range_message.max_range = true then
      updateCostmap_line X tx ty theta radius res fuel (-1 * radius) L2
    else some L2
  L3.map fun L3 =>
    let ab1 := X.worldToMapNoBounds L3 (tx - radius * X.sin theta) (ty + radius * X.cos theta)
    let L4 := touch L3 (tx - radius * X.sin theta) (ty + radius * X.cos theta)
    let ab2 := X.worldToMapNoBounds L4 (tx + radius * X.sin theta) (ty - radius * X.cos theta)
    let L5 := touch L4 (tx + radius * X.sin theta) (ty - radius * X.cos theta)
    let bx0 := min (min b0.1 ab1.1) ab2.1
    let bx1 := max (max b0.1 ab1.1) ab2.1
    let by0 := min (min b0.2 ab1.2) ab2.2
    let by1 := max (max b0.2 ab1.2) ab2.2
    let lim := updateCostmap_limit L5 bx0 by0 bx1 by1
    { L := L5, ox := ox, oy := oy, theta := theta,
      bx0 := lim.1, by0 := lim.2.1, bx1 := lim.2.2.1, by1 := lim.2.2.2 }

/-- The inner loop `for (unsigned int y = by0; y <= (unsigned int)by1; y++)` of
the per-reading update, entered with the current `y`; `none` when `fuel`
passes do not reach its end, or when `update_cell` is undefined. -/
def updateCostmap_ys (E : Env) (X : Ext) (ox oy theta range : ℚ) (clear : Bool)
    (x uby1 : Nat) : Nat → Nat → RangeSensorLayer → Option RangeSensorLayer
  | 0, y, L => if y ≤ uby1 then none else some L
  | fuel + 1, y, L =>
    if y ≤ uby1 then
      let w := X.mapToWorld L x y
      (update_cell E L ox oy theta range w.1 w.2 clear).bind fun L1 =>
        updateCostmap_ys E X ox oy theta range clear x uby1 fuel ((y + 1) % 2 ^ 32) L1
    else some L

/-- The outer loop `for (unsigned int x = bx0; x <= (unsigned int)bx1; x++)` of
the per-reading update, entered with the current `x`; each inner loop gets
`fuel0` passes. -/
def updateCostmap_xs (E : Env) (X : Ext) (ox oy theta range : ℚ) (clear : Bool)
    (uby0 ubx1 uby1 fuel0 : Nat) : Nat → Nat → RangeSensorLayer → Option RangeSensorLayer
  | 0, x, L => if x ≤ ubx1 then none else some L
  | fuel + 1, x, L =>
    if x ≤ ubx1 then
      (updateCostmap_ys E X ox oy theta range clear x uby1 fuel0 uby0 L).bind fun L1 =>
        updateCostmap_xs E X ox oy theta range clear uby0 ubx1 uby1 fuel0 fuel
          ((x + 1) % 2 ^ 32) L1
    else some L

/-- The cell loop of the per-reading update, from the limited bounds. -/
def updateCostmap_cells (E : Env) (X : Ext) (fuel : Nat) (c : Cone) (range : ℚ)
    (clear : Bool) : Option RangeSensorLayer :=
  updateCostmap_xs E X c.ox c.oy c.theta range clear (toUInt32 c.by0) (toUInt32 c.bx1)
    (toUInt32 c.by1) fuel fuel (toUInt32 c.bx0) c.L

/-- The function `RangeSensorLayer::updateCostmap(range_message,
clear_sensor_cone)`, each of its loops given `fuel` passes.  The result is
`none` when a loop does not end within `fuel` passes, when `update_cell` is
undefined, and when the range is not finite (the target point has then no
finite coordinates to convert to cell indices). -/
def updateCostmap_reading (E : Env) (X : Ext) (fuel : Nat) (L : RangeSensorLayer)
    (range_message : Range) (clear_sensor_cone : Bool) : Option RangeSensorLayer :=
  let L0 : RangeSensorLayer := { L with max_angle_ := range_message.field_of_view / 2 }
  if X.waitForTransform range_message.frame_id range_message.stamp = false then some L0
  else
    match range_message.range with
    | Flt.fin range =>
      (updateCostmap_cone E X fuel L0 range_message range).bind fun c =>
        (updateCostmap_cells E X fuel c range clear_sensor_cone).map fun L6 =>
          { L6 with
            buffered_readings_ := (L6.buffered_readings_ + 1) % 2 ^ 32
            last_reading_time_ := X.now }
    | _ => none

/-! ## The bounds reported to the caller -/

/-- The end of `RangeSensorLayer::updateBounds`, after the bounds were reported
and reset: the update of `current_`. -/
def updateBounds_current (X : Ext) (L2 : RangeSensorLayer) : RangeSensorLayer :=
  if L2.enabled_ = false then { L2 with current_ := true }
  else if L2.buffered_readings_ = 0 then
    if L2.no_readings_timeout_ > 0
        ∧ X.now - L2.last_reading_time_ > L2.no_readings_timeout_ then
      { L2 with current_ := false }
    else L2
  else L2

/-- The function `RangeSensorLayer::updateBounds`: the layer after the call
and the values left in `*min_x`, `*min_y`, `*max_x`, `*max_y`. -/
def updateBounds (X : Ext) (process : RangeSensorLayer → Range → RangeSensorLayer)
    (L : RangeSensorLayer) (robot_x robot_y _robot_yaw : ℚ) (min_x min_y max_x max_y : ℚ) :
    RangeSensorLayer × (ℚ × ℚ × ℚ × ℚ) :=
  let L0 : RangeSensorLayer :=
    if X.isRolling = true then
      let g := X.updateOrigin L (robot_x - X.getSizeInMetersX L / 2)
        (robot_y - X.getSizeInMetersY L / 2)
      { L with costmap_ := g.1, origin_x_ := g.2.1, origin_y_ := g.2.2 }
    else L
  let L1 := updateCostmap process L0
  let out := (min min_x L1.min_x_, min min_y L1.min_y_, max max_x L1.max_x_, max max_y L1.max_y_)
  let L2 : RangeSensorLayer :=
    { L1 with min_x_ := DBL_MAX, min_y_ := DBL_MAX, max_x_ := DBL_MIN, max_y_ := DBL_MIN }
  (updateBounds_current X L2, out)

end range_sensor_layer

/-! # social_navigation_layers: `SocialLayer::updateBounds` -/

namespace social_navigation_layers

/-- A point `(x, y, z)`. -/
structure Point where
  x : ℚ
  y : ℚ
  z : ℚ

/-- The fields of `object_bridge_msgs::SocialObject` that the layer reads. -/
structure SocialObject where
  position : Point
  velocity : Point

/-- The member variables of `SocialLayer` that `updateBounds` reads or writes;
`frame_id` and `objects` are those of `social_list_`. -/
structure SocialLayer where
  frame_id : String
  objects : List SocialObject
  transformed_social_ : List SocialObject
  first_time_ : Bool
  last_min_x_ : ℚ
  last_min_y_ : ℚ
  last_max_x_ : ℚ
  last_max_y_ : ℚ

/-- The loop of `SocialLayer::updateBounds` over `social_list_.objects`: the
objects pushed to `transformed_social_`.  `transformPoint` is the one of tf,
`none` when it throws one of the three exceptions the loop catches. -/
def transformObjects (transformPoint : String → Point → Option Point) (frame_id : String) :
    List SocialObject → List SocialObject
  | [] => []
  | person :: rest =>
    match transformPoint frame_id person.position with
    | none => transformObjects transformPoint frame_id rest
    | some opt1 =>
      let pt : Point :=
        { x := person.position.x + person.velocity.x
          y := person.position.y + person.velocity.y
          z := person.position.z + person.velocity.z }
      match transformPoint frame_id pt with
      | none => transformObjects transformPoint frame_id rest
      | some opt2 =>
        { position := opt1, velocity := opt2 } :: transformObjects transformPoint frame_id rest

/-- The function `SocialLayer::updateBounds`: the layer after the call and the
values left in `*min_x`, `*min_y`, `*max_x`, `*max_y`.  The pure virtual
`updateBoundsFromSocial` is a parameter: from the layer and the incoming
bounds, the bounds it leaves. -/
def updateBounds (transformPoint : String → Point → Option Point)
    (updateBoundsFromSocial : SocialLayer → ℚ × ℚ × ℚ × ℚ → ℚ × ℚ × ℚ × ℚ)
    (S : SocialLayer) (min_x min_y max_x max_y : ℚ) : SocialLayer × (ℚ × ℚ × ℚ × ℚ) :=
  let S1 : SocialLayer :=
    { S with transformed_social_ := transformObjects transformPoint S.frame_id S.objects }
  let b := updateBoundsFromSocial S1 (min_x, min_y, max_x, max_y)
  if S1.first_time_ = true then
    ({ S1 with
        last_min_x_ := b.1
        last_min_y_ := b.2.1
        last_max_x_ := b.2.2.1
        last_max_y_ := b.2.2.2
        first_time_ := false }, b)
  else
    ({ S1 with
        last_min_x_ := b.1
        last_min_y_ := b.2.1
        last_max_x_ := b.2.2.1
        last_max_y_ := b.2.2.2 },
      (min S1.last_min_x_ b.1, min S1.last_min_y_ b.2.1, max S1.last_max_x_ b.2.2.1,
        max S1.last_max_y_ b.2.2.2))

end social_navigation_layers

namespace range_sensor_layer

/-! ## Concrete inputs

Rational stand-ins for the external functions and a small layer, on which the
model is evaluated. -/

/-- The continued fraction `(2k+1) + x2/((2k+3) + x2/(...))` of `n` levels,
whose value at `k = 0` and `x2 = x * x` approaches `x / tanh x`. -/
def tanh_fraction (x2 : ℚ) : Nat → Nat → ℚ
  | 0, k => 2 * k + 1
  | n + 1, k => (2 * k + 1) + x2 / tanh_fraction x2 n (k + 1)

/-- A stand-in for the `double` function `tanh`: exactly `1.0` from 20 on and
`-1.0` down from -20, as the `double` function is (it returns exactly `1.0`
from an argument of about 19.1 on); in between, the continued fraction of 40
levels, a close approximation of `tanh` (0.4621 at 0.5, 0.9217 at 1.6), kept
in `[-1, 1]`. -/
def exampleTanh (x : ℚ) : ℚ :=
  if x ≥ 20 then 1
  else if x ≤ -20 then -1
  else max (-1) (min 1 (x / tanh_fraction (x * x) 40 0))

/-- An environment of computable stand-ins: `tanh` is `exampleTanh`, `atan2`
is a piecewise-rational approximation (exact on the positive x axis), `sqrt` is
exact on squares of rationals, `worldToMap` is the one of `costmap_2d`,
`to_prob (c) = c / 254` and `to_cost (p)` is the `unsigned char` cast of
`p * 254`. -/
def exampleEnv : Env where
  tanh := exampleTanh
  atan2 := fun y x =>
    if 0 ≤ x then (11 / 7) * (y / (|x| + |y|))
    else if 0 ≤ y then (11 / 7) * (2 - y / (|x| + |y|))
    else (11 / 7) * (-2 - y / (|x| + |y|))
  sqrt := fun q => (Nat.sqrt q.num.toNat : ℚ) / (Nat.sqrt q.den : ℚ)
  normalize_angle := fun a =>
    if a > 22 / 7 then a - 44 / 7 else if a < -(22 / 7) then a + 44 / 7 else a
  worldToMap := fun L wx wy =>
    if wx < L.origin_x_ ∨ wy < L.origin_y_ then none
    else
      let mx := (⌊(wx - L.origin_x_) / L.resolution_⌋ % 2 ^ 32).toNat
      let my := (⌊(wy - L.origin_y_) / L.resolution_⌋ % 2 ^ 32).toNat
      if mx < L.size_x_ ∧ my < L.size_y_ then some (mx, my) else none
  to_prob := fun c => (c : ℚ) / 254
  to_cost := fun p => (⌊p * 254⌋ % 256).toNat

/-- A 4 by 4 layer of resolution 1 at the origin whose cells all hold
`stored`, with `max_angle_ = 1/2`, thresholds 0.2 and 0.8 and an empty scan. -/
def exampleLayer (stored : Nat) : RangeSensorLayer where
  enabled_ := true
  current_ := true
  fusion := false
  buffered_readings_ := 0
  last_reading_time_ := 0
  default_value_ := 127
  min_x_ := 0
  min_y_ := 0
  max_x_ := 0
  max_y_ := 0
  clear_on_max_reading_ := true
  phi_v_ := 12 / 10
  max_angle_ := 1 / 2
  no_readings_timeout_ := 0
  mark_threshold_ := 8 / 10
  clear_threshold_ := 2 / 10
  size_x_ := 4
  size_y_ := 4
  resolution_ := 1
  origin_x_ := 0
  origin_y_ := 0
  costmap_ := fun _ => stored
  range_msgs_buffer_ := []
  scan_msgs_ := { stamp := 0, ranges := #[] }

/-- A 4 by 4 master grid whose cells all hold `stored`. -/
def exampleMaster (stored : Nat) : Costmap2D where
  size_x_ := 4
  size_y_ := 4
  costmap_ := fun _ => stored

/-- A variable-range reading: range 5 between the bounds 0.1 and 10. -/
def exampleReading : Range where
  stamp := 0
  frame_id := "sonar"
  field_of_view := 1
  min_range := Flt.fin (1 / 10)
  max_range := Flt.fin 10
  range := Flt.fin 5

/-- The example layer with a buffered scan of 101 samples, all at distance
`d`. -/
def exampleScanLayer (d : ℚ) : RangeSensorLayer :=
  { exampleLayer 0 with scan_msgs_ := { stamp := 0, ranges := Array.mkArray 101 (Flt.fin d) } }

/-- A reading of `+inf` whose bounds 0.1 and 10 differ. -/
def exampleMaxReading : Range where
  stamp := 0
  frame_id := "sonar"
  field_of_view := 1
  min_range := Flt.fin (1 / 10)
  max_range := Flt.fin 10
  range := Flt.posInf

/-- A stand-in for the external functions of the per-reading update, for a
sensor at the world point `(sx, sy)` looking along the x axis: `sin` and `cos`
are Taylor polynomials (exact at 0), the `costmap_2d` functions are those of
`costmap_2d` (the cast to `int` truncates towards zero), the master resolution
is 1 and the time is 100. -/
def exampleExt (sx sy : ℚ) : Ext where
  waitForTransform := fun _ _ => true
  transformPoint := fun _ _ x => (sx + x, sy)
  sin := fun t => t - t ^ 3 / 6
  cos := fun t => 1 - t ^ 2 / 2
  worldToMapNoBounds := fun L wx wy =>
    let qx := (wx - L.origin_x_) / L.resolution_
    let qy := (wy - L.origin_y_) / L.resolution_
    (if 0 ≤ qx then ⌊qx⌋ else ⌈qx⌉, if 0 ≤ qy then ⌊qy⌋ else ⌈qy⌉)
  mapToWorld := fun L mx my =>
    (L.origin_x_ + ((mx : ℚ) + 1 / 2) * L.resolution_,
      L.origin_y_ + ((my : ℚ) + 1 / 2) * L.resolution_)
  getSizeInMetersX := fun L => ((L.size_x_ : ℚ) - 1 + 1 / 2) * L.resolution_
  getSizeInMetersY := fun L => ((L.size_y_ : ℚ) - 1 + 1 / 2) * L.resolution_
  updateOrigin := fun L new_origin_x new_origin_y => (L.costmap_, new_origin_x, new_origin_y)
  getResolution := 1
  isRolling := false
  now := 100

/-- A reading of range 2 (bounds 0.1 and 10) with field of view `fov`. -/
def exampleDetection (fov : ℚ) : Range where
  stamp := 0
  frame_id := "sonar"
  field_of_view := fov
  min_range := Flt.fin (1 / 10)
  max_range := Flt.fin 10
  range := Flt.fin 2

/-- A reading of range 0.1, below `CLOSE_DISTANCE`, with field of view 1. -/
def exampleCloseReading : Range where
  stamp := 0
  frame_id := "sonar"
  field_of_view := 1
  min_range := Flt.fin (1 / 20)
  max_range := Flt.fin 10
  range := Flt.fin (1 / 10)

/-- A configuration that keeps the layer enabled and asks for the thresholds
0.2 and 0.8. -/
def exampleConfig : RangeSensorLayerConfig where
  phi := 12 / 10
  max_angle := 1 / 4
  no_readings_timeout := 5
  mark_threshold := 8 / 10
  clear_threshold := 2 / 10
  clear_on_max_reading := false
  enabled := true

/-- The layer `L1` differs from `L` at most in the char map and in the four
bounds `min_x_`, `min_y_`, `max_x_`, `max_y_`. -/
def GridOnly (L L1 : RangeSensorLayer) : Prop :=
  L1 = { L with
    costmap_ := L1.costmap_
    min_x_ := L1.min_x_
    min_y_ := L1.min_y_
    max_x_ := L1.max_x_
    max_y_ := L1.max_y_ }

/-- The value the body of the inner loop of `updateCosts` leaves in a master
cell that held `old_cost`, when the layer stores `prob` at the same index. -/
def updateCosts_value (clear mark prob old_cost : Nat) : Nat :=
  if prob = NO_INFORMATION then old_cost
  else if prob > mark then
    if old_cost = NO_INFORMATION ∨ old_cost < LETHAL_OBSTACLE then LETHAL_OBSTACLE else old_cost
  else if prob < clear then
    if old_cost = NO_INFORMATION ∨ old_cost < FREE_SPACE then FREE_SPACE else old_cost
  else old_cost

/-! ## Merging never lowers a lethal master cell -/

theorem updateCosts_cell_lethal (costmap_ : Nat → Nat) (clear mark it : Nat)
    (master_array : Nat → Nat) (k : Nat) (h : master_array k = LETHAL_OBSTACLE) :
    updateCosts_cell costmap_ clear mark it master_array k = LETHAL_OBSTACLE := by
  unfold updateCosts_cell
  simp only [NO_INFORMATION, LETHAL_OBSTACLE, FREE_SPACE] at *
  split_ifs with h1 h2 h3 h4 h5
  · exact h
  · by_cases hk : k = it
    · subst hk; simp
    · simp [hk, h]
  · exact h
  · by_cases hk : k = it
    · subst hk; omega
    · simp [hk, h]
  · exact h
  · exact h

theorem updateCosts_row_lethal (costmap_ : Nat → Nat) (clear mark : Nat) (k : Nat) :
    ∀ (n it : Nat) (master_array : Nat → Nat), master_array k = LETHAL_OBSTACLE →
      updateCosts_row costmap_ clear mark n it master_array k = LETHAL_OBSTACLE := by
  intro n
  induction n with
  | zero => intro it master_array h; simpa [updateCosts_row] using h
  | succ n ih =>
    intro it master_array h
    simp only [updateCosts_row]
    exact ih _ _ (updateCosts_cell_lethal costmap_ clear mark it master_array k h)

theorem updateCosts_rows_lethal (costmap_ : Nat → Nat) (clear mark span : Nat)
    (min_i max_i : Int) (k : Nat) :
    ∀ (n : Nat) (j : Int) (master_array : Nat → Nat), master_array k = LETHAL_OBSTACLE →
      updateCosts_rows costmap_ clear mark span min_i max_i n j master_array k
        = LETHAL_OBSTACLE := by
  intro n
  induction n with
  | zero => intro j master_array h; simpa [updateCosts_rows] using h
  | succ n ih =>
    intro j master_array h
    simp only [updateCosts_rows]
    exact ih _ _ (updateCosts_row_lethal costmap_ clear mark k _ _ master_array h)

/-- C1: for every environment, layer, master grid and window, a cell of the
master array that holds `LETHAL_OBSTACLE` (254) before `updateCosts` holds
`LETHAL_OBSTACLE` after it, whatever the layer stores for the cell. -/
theorem updateCosts_keeps_lethal (E : Env) (L : RangeSensorLayer) (master_grid : Costmap2D)
    (min_i min_j max_i max_j : Int) (k : Nat)
    (h : master_grid.costmap_ k = LETHAL_OBSTACLE) :
    (updateCosts E L master_grid min_i min_j max_i max_j).2.costmap_ k = LETHAL_OBSTACLE := by
  unfold updateCosts
  by_cases he : L.enabled_ = false
  · simpa [he] using h
  · simp only [he, if_false]
    exact updateCosts_rows_lethal _ _ _ _ _ _ k _ _ _ h

/-- C1 at a concrete input: the layer stores 0 (below the clear cost) in every
cell of a 4 by 4 window and the master cell 5 is lethal. -/
theorem updateCosts_keeps_lethal_witness :
    (exampleMaster 254).costmap_ 5 = LETHAL_OBSTACLE ∧
      (updateCosts exampleEnv (exampleLayer 0) (exampleMaster 254) 0 0 4 4).2.costmap_ 5
        = LETHAL_OBSTACLE :=
  ⟨rfl, updateCosts_keeps_lethal exampleEnv (exampleLayer 0) (exampleMaster 254) 0 0 4 4 5 rfl⟩

/-! ## The Bayes update under neutral evidence -/

theorem new_prob_half (p : ℚ) : new_prob (1 / 2) p = some p := by
  have hden : (1 / 2 : ℚ) * p + (1 - 1 / 2) * (1 - p) = 1 / 2 := by ring
  simp only [new_prob, fdiv, hden]
  norm_num

/-- C2: with likelihood `s = 0.5` the Bayes update of `update_cell` returns the
prior `p` itself, for every prior `p` (so for every `p` in (0,1)), and applying
it any number `n` of times to `p` returns `p`. -/
theorem new_prob_neutral (p : ℚ) :
    new_prob (1 / 2) p = some p ∧
      ∀ n : Nat, (fun o : Option ℚ => o.bind (new_prob (1 / 2)))^[n] (some p) = some p := by
  refine ⟨new_prob_half p, ?_⟩
  intro n
  induction n with
  | zero => rfl
  | succ n ih =>
    rw [Function.iterate_succ_apply', ih]
    exact new_prob_half p

/-! ## Rounding to nearest -/

theorem pow2_eq (z : Int) : pow2 z = (2 : ℚ) ^ z := by
  unfold pow2
  split_ifs with h
  · obtain ⟨n, rfl⟩ := Int.eq_ofNat_of_zero_le h
    simp
  · obtain ⟨n, hn⟩ := Int.eq_ofNat_of_zero_le (show 0 ≤ -z by omega)
    have hz : z = -(n : Int) := by omega
    subst hz
    simp

theorem pow2_pos (z : Int) : 0 < pow2 z := by
  rw [pow2_eq]
  positivity

theorem ilog2_loop_spec : ∀ fuel n : Nat, n ≤ fuel → 1 ≤ n →
    2 ^ ilog2_loop fuel n ≤ n ∧ n < 2 ^ (ilog2_loop fuel n + 1) := by
  intro fuel
  induction fuel with
  | zero => intro n h0 h1; omega
  | succ fuel ih =>
    intro n hf h1
    unfold ilog2_loop
    split_ifs with h2
    · obtain ⟨ha, hb⟩ := ih (n / 2) (by omega) (by omega)
      rw [pow_succ] at hb ⊢
      rw [pow_succ]
      constructor <;> omega
    · simp
      omega

theorem ilog2_spec (n : Nat) (h1 : 1 ≤ n) : 2 ^ ilog2 n ≤ n ∧ n < 2 ^ (ilog2 n + 1) :=
  ilog2_loop_spec n n le_rfl h1

theorem binade_spec (q : ℚ) (hq : q ≠ 0) :
    (2 : ℚ) ^ binade q ≤ |q| ∧ |q| < (2 : ℚ) ^ (binade q + 1) := by
  have hn : 1 ≤ q.num.natAbs := by
    have : q.num ≠ 0 := Rat.num_ne_zero.mpr hq
    omega
  have hd : 1 ≤ q.den := q.den_pos
  obtain ⟨na, nb⟩ := ilog2_spec _ hn
  obtain ⟨da, db⟩ := ilog2_spec _ hd
  have habs : |q| = (q.num.natAbs : ℚ) / (q.den : ℚ) := by
    conv_lhs => rw [← Rat.num_div_den q]
    rw [abs_div, Nat.abs_cast, Nat.cast_natAbs, Int.cast_abs]
  have hdpos : (0 : ℚ) < (q.den : ℚ) := by exact_mod_cast hd
  have na' : (2 : ℚ) ^ (ilog2 q.num.natAbs) ≤ (q.num.natAbs : ℚ) := by exact_mod_cast na
  have nb' : (q.num.natAbs : ℚ) < (2 : ℚ) ^ (ilog2 q.num.natAbs + 1) := by exact_mod_cast nb
  have da' : (2 : ℚ) ^ (ilog2 q.den) ≤ (q.den : ℚ) := by exact_mod_cast da
  have db' : (q.den : ℚ) < (2 : ℚ) ^ (ilog2 q.den + 1) := by exact_mod_cast db
  -- the two bounds on the quotient
  have hlow : (2 : ℚ) ^ ((ilog2 q.num.natAbs : Int) - (ilog2 q.den : Int) - 1) < |q| := by
    rw [habs, lt_div_iff₀ hdpos]
    have e : (2 : ℚ) ^ ((ilog2 q.num.natAbs : Int) - (ilog2 q.den : Int) - 1)
        * (2 : ℚ) ^ (ilog2 q.den + 1) = (2 : ℚ) ^ (ilog2 q.num.natAbs) := by
      rw [← zpow_natCast, ← zpow_natCast, ← zpow_add₀ (by norm_num : (2 : ℚ) ≠ 0)]
      congr 1
      push_cast
      ring
    have hp : (0 : ℚ) < (2 : ℚ) ^ ((ilog2 q.num.natAbs : Int) - (ilog2 q.den : Int) - 1) := by
      positivity
    calc (2 : ℚ) ^ ((ilog2 q.num.natAbs : Int) - (ilog2 q.den : Int) - 1) * (q.den : ℚ)
        < (2 : ℚ) ^ ((ilog2 q.num.natAbs : Int) - (ilog2 q.den : Int) - 1)
            * (2 : ℚ) ^ (ilog2 q.den + 1) := mul_lt_mul_of_pos_left db' hp
      _ = (2 : ℚ) ^ (ilog2 q.num.natAbs) := e
      _ ≤ _ := na'
  have hupp : |q| < (2 : ℚ) ^ ((ilog2 q.num.natAbs : Int) - (ilog2 q.den : Int) + 1) := by
    rw [habs, div_lt_iff₀ hdpos]
    have e : (2 : ℚ) ^ ((ilog2 q.num.natAbs : Int) - (ilog2 q.den : Int) + 1)
        * (2 : ℚ) ^ (ilog2 q.den) = (2 : ℚ) ^ (ilog2 q.num.natAbs + 1) := by
      rw [← zpow_natCast, ← zpow_natCast, ← zpow_add₀ (by norm_num : (2 : ℚ) ≠ 0)]
      congr 1
      push_cast
      ring
    have hp : (0 : ℚ) < (2 : ℚ) ^ ((ilog2 q.num.natAbs : Int) - (ilog2 q.den : Int) + 1) := by
      positivity
    calc (q.num.natAbs : ℚ) < (2 : ℚ) ^ (ilog2 q.num.natAbs + 1) := nb'
      _ = (2 : ℚ) ^ ((ilog2 q.num.natAbs : Int) - (ilog2 q.den : Int) + 1)
            * (2 : ℚ) ^ (ilog2 q.den) := e.symm
      _ ≤ _ := mul_le_mul_of_nonneg_left da' (le_of_lt hp)
  unfold binade
  simp only
  split_ifs with h
  · rw [pow2_eq] at h
    exact ⟨h, hupp⟩
  · rw [pow2_eq] at h
    refine ⟨le_of_lt hlow, ?_⟩
    have : (ilog2 q.num.natAbs : Int) - (ilog2 q.den : Int) - 1 + 1
        = (ilog2 q.num.natAbs : Int) - (ilog2 q.den : Int) := by ring
    rw [this]
    exact not_le.mp h

theorem roundNearestEven_cases (x : ℚ) :
    roundNearestEven x = ⌊x⌋ ∨ roundNearestEven x = ⌊x⌋ + 1 := by
  unfold roundNearestEven
  simp only
  split_ifs <;> simp

theorem roundNearestEven_intCast (n : Int) : roundNearestEven (n : ℚ) = n := by
  unfold roundNearestEven
  simp

theorem roundNearestEven_mono {x y : ℚ} (h : x ≤ y) :
    roundNearestEven x ≤ roundNearestEven y := by
  have hf : ⌊x⌋ ≤ ⌊y⌋ := Int.floor_mono h
  rcases lt_or_eq_of_le hf with hlt | heq
  · have h1 : roundNearestEven x ≤ ⌊x⌋ + 1 := by
      rcases roundNearestEven_cases x with h | h <;> omega
    have h2 : ⌊y⌋ ≤ roundNearestEven y := by
      rcases roundNearestEven_cases y with h | h <;> omega
    omega
  · unfold roundNearestEven
    simp only
    rw [← heq]
    have hd : x - (⌊x⌋ : ℚ) ≤ y - (⌊x⌋ : ℚ) := by linarith
    split_ifs <;> first | omega | (exfalso; linarith)

theorem roundNearestEven_neg (x : ℚ) : roundNearestEven (-x) = -roundNearestEven x := by
  by_cases hx : (⌊x⌋ : ℚ) = x
  · rw [← hx, ← Int.cast_neg, roundNearestEven_intCast, roundNearestEven_intCast]
  · have h1 : (⌊x⌋ : ℚ) < x := lt_of_le_of_ne (Int.floor_le x) hx
    have h2 : x < (⌊x⌋ : ℚ) + 1 := Int.lt_floor_add_one x
    have hfl : ⌊-x⌋ = -⌊x⌋ - 1 := by
      rw [Int.floor_eq_iff]
      push_cast
      constructor <;> linarith
    unfold roundNearestEven
    simp only
    rw [hfl]
    push_cast
    split_ifs <;> first | omega | (exfalso; linarith)

theorem roundSig_zero (p : Nat) : roundSig p 0 = 0 := by
  simp [roundSig]

theorem binade_neg (q : ℚ) : binade (-q) = binade q := by
  simp [binade]

theorem roundSig_neg (p : Nat) (q : ℚ) : roundSig p (-q) = -roundSig p q := by
  by_cases h : q = 0
  · simp [h, roundSig]
  · have h1 : -q ≠ 0 := neg_ne_zero.mpr h
    simp only [roundSig, h, h1, if_false, binade_neg, neg_div, roundNearestEven_neg]
    push_cast
    ring

theorem roundSig_pos_bounds (p : Nat) (hp : 1 ≤ p) (q : ℚ) (hq : 0 < q) :
    (2 : ℚ) ^ binade q ≤ roundSig p q ∧ roundSig p q ≤ (2 : ℚ) ^ (binade q + 1) := by
  obtain ⟨hlo, hhi⟩ := binade_spec q (ne_of_gt hq)
  rw [abs_of_pos hq] at hlo hhi
  have hu : (0 : ℚ) < (2 : ℚ) ^ (binade q - (p : Int) + 1) := by positivity
  have e1 : (((2 ^ (p - 1) : Nat) : Int) : ℚ) * (2 : ℚ) ^ (binade q - (p : Int) + 1)
      = (2 : ℚ) ^ binade q := by
    push_cast
    rw [← zpow_natCast, ← zpow_add₀ (by norm_num : (2 : ℚ) ≠ 0)]
    congr 1
    have : ((p - 1 : Nat) : Int) = (p : Int) - 1 := by omega
    rw [this]
    ring
  have e2 : (((2 ^ p : Nat) : Int) : ℚ) * (2 : ℚ) ^ (binade q - (p : Int) + 1)
      = (2 : ℚ) ^ (binade q + 1) := by
    push_cast
    rw [← zpow_natCast, ← zpow_add₀ (by norm_num : (2 : ℚ) ≠ 0)]
    congr 1
    ring
  have h1 : (((2 ^ (p - 1) : Nat) : Int) : ℚ) ≤ q / (2 : ℚ) ^ (binade q - (p : Int) + 1) := by
    rw [le_div_iff₀ hu, e1]
    exact hlo
  have h2 : q / (2 : ℚ) ^ (binade q - (p : Int) + 1) ≤ (((2 ^ p : Nat) : Int) : ℚ) := by
    rw [div_le_iff₀ hu, e2]
    exact le_of_lt hhi
  have r1 := roundNearestEven_mono h1
  have r2 := roundNearestEven_mono h2
  rw [roundNearestEven_intCast] at r1 r2
  have r1' : (((2 ^ (p - 1) : Nat) : Int) : ℚ)
      ≤ (roundNearestEven (q / (2 : ℚ) ^ (binade q - (p : Int) + 1)) : ℚ) := by
    exact_mod_cast r1
  have r2' : (roundNearestEven (q / (2 : ℚ) ^ (binade q - (p : Int) + 1)) : ℚ)
      ≤ (((2 ^ p : Nat) : Int) : ℚ) := by
    exact_mod_cast r2
  simp only [roundSig, ne_of_gt hq, if_false, pow2_eq]
  constructor
  · rw [← e1]
    exact mul_le_mul_of_nonneg_right r1' (le_of_lt hu)
  · rw [← e2]
    exact mul_le_mul_of_nonneg_right r2' (le_of_lt hu)

theorem roundSig_pos (p : Nat) (hp : 1 ≤ p) (q : ℚ) (hq : 0 < q) : 0 < roundSig p q :=
  lt_of_lt_of_le (by positivity) (roundSig_pos_bounds p hp q hq).1

theorem roundSig_mono_pos (p : Nat) (hp : 1 ≤ p) (x y : ℚ) (hx : 0 < x) (hxy : x ≤ y) :
    roundSig p x ≤ roundSig p y := by
  have hy : 0 < y := lt_of_lt_of_le hx hxy
  obtain ⟨xlo, xhi⟩ := binade_spec x (ne_of_gt hx)
  obtain ⟨ylo, yhi⟩ := binade_spec y (ne_of_gt hy)
  rw [abs_of_pos hx] at xlo xhi
  rw [abs_of_pos hy] at ylo yhi
  have hlt : (2 : ℚ) ^ binade x < (2 : ℚ) ^ (binade y + 1) :=
    lt_of_le_of_lt xlo (lt_of_le_of_lt hxy yhi)
  have hle : binade x < binade y + 1 := (zpow_lt_zpow_iff_right₀ (by norm_num)).mp hlt
  rcases lt_or_eq_of_le (Int.lt_add_one_iff.mp hle) with h | h
  · calc roundSig p x ≤ (2 : ℚ) ^ (binade x + 1) := (roundSig_pos_bounds p hp x hx).2
      _ ≤ (2 : ℚ) ^ binade y := zpow_le_zpow_right₀ (by norm_num) (by omega)
      _ ≤ roundSig p y := (roundSig_pos_bounds p hp y hy).1
  · have hu : (0 : ℚ) < pow2 (binade y - (p : Int) + 1) := pow2_pos _
    simp only [roundSig, ne_of_gt hx, ne_of_gt hy, if_false, h]
    apply mul_le_mul_of_nonneg_right _ (le_of_lt hu)
    have : x / pow2 (binade y - (p : Int) + 1) ≤ y / pow2 (binade y - (p : Int) + 1) :=
      div_le_div_of_nonneg_right hxy (le_of_lt hu)
    exact_mod_cast roundNearestEven_mono this

theorem roundSig_nonneg (p : Nat) (hp : 1 ≤ p) (q : ℚ) (hq : 0 ≤ q) : 0 ≤ roundSig p q := by
  rcases eq_or_lt_of_le hq with h | h
  · rw [← h, roundSig_zero]
  · exact le_of_lt (roundSig_pos p hp q h)

theorem roundSig_mono (p : Nat) (hp : 1 ≤ p) (x y : ℚ) (hxy : x ≤ y) :
    roundSig p x ≤ roundSig p y := by
  rcases lt_trichotomy x 0 with hx | hx | hx
  · rcases lt_or_le y 0 with hy | hy
    · have h := roundSig_mono_pos p hp (-y) (-x) (by linarith) (by linarith)
      rw [roundSig_neg, roundSig_neg] at h
      linarith
    · have h1 := roundSig_nonneg p hp (-x) (by linarith)
      rw [roundSig_neg] at h1
      have h2 := roundSig_nonneg p hp y hy
      linarith
  · subst hx
    rw [roundSig_zero]
    exact roundSig_nonneg p hp y hxy
  · exact roundSig_mono_pos p hp x y hx hxy

theorem roundSig_abs (p : Nat) (hp : 1 ≤ p) (q : ℚ) : |roundSig p q| = roundSig p |q| := by
  rcases le_total 0 q with h | h
  · rw [abs_of_nonneg h, abs_of_nonneg (roundSig_nonneg p hp q h)]
  · have h1 := roundSig_nonneg p hp (-q) (by linarith)
    rw [roundSig_neg] at h1
    rw [abs_of_nonpos h, abs_of_nonpos (by linarith), roundSig_neg]

theorem roundDouble_one : roundDouble 1 = 1 := by decide!

/-! ## The angular attenuation -/

theorem gamma_outside (L : RangeSensorLayer) (theta : ℚ) (h : |theta| > L.max_angle_) :
    gamma L theta = some 0 := by
  simp [gamma, h]

theorem gamma_inside (L : RangeSensorLayer) (theta : ℚ) (hmax : 0 < L.max_angle_)
    (h : |theta| ≤ L.max_angle_) :
    gamma L theta = some (1 - (theta / L.max_angle_) ^ 2) := by
  have h1 : ¬ |theta| > L.max_angle_ := not_lt.mpr h
  have h2 : L.max_angle_ ≠ 0 := ne_of_gt hmax
  simp [gamma, fdiv, h1, h2]

theorem roundDouble_zero : roundDouble 0 = 0 := roundSig_zero 53

theorem roundDouble_mono (x y : ℚ) (h : x ≤ y) : roundDouble x ≤ roundDouble y :=
  roundSig_mono 53 (by norm_num) x y h

theorem roundDouble_sq_one (q : ℚ) (h : |q| = 1) : roundDouble q ^ 2 = 1 := by
  have h1 : |roundDouble q| = 1 := by
    unfold roundDouble
    rw [roundSig_abs 53 (by norm_num), h]
    exact roundDouble_one
  rw [← sq_abs, h1]
  norm_num

theorem gamma_double_outside (L : RangeSensorLayer) (theta : ℚ) (h : |theta| > L.max_angle_) :
    gamma_double L theta = some 0 := by
  simp [gamma_double, h]

theorem gamma_double_inside (L : RangeSensorLayer) (theta : ℚ) (hmax : 0 < L.max_angle_)
    (h : |theta| ≤ L.max_angle_) :
    gamma_double L theta
      = some (roundDouble (1 - roundDouble (roundDouble (theta / L.max_angle_) ^ 2))) := by
  have h1 : ¬ |theta| > L.max_angle_ := not_lt.mpr h
  have h2 : L.max_angle_ ≠ 0 := ne_of_gt hmax
  simp [gamma_double, fdiv, h1, h2]

/-- C3 as the code has it: when `max_angle_ > 0`, the `double` function
`gamma` gives `gamma(0) = 1`; `gamma(theta) = 0` when `|theta| = max_angle_`;
`gamma(theta) = 0` when `|theta| > max_angle_`; and
`gamma(theta1) >= gamma(theta2)` whenever `|theta1| < |theta2| <= max_angle_`:
it does not increase with `|theta|`. -/
theorem gamma_double_shape (L : RangeSensorLayer) (hmax : 0 < L.max_angle_) :
    gamma_double L 0 = some 1 ∧
    (∀ theta : ℚ, |theta| = L.max_angle_ → gamma_double L theta = some 0) ∧
    (∀ theta : ℚ, |theta| > L.max_angle_ → gamma_double L theta = some 0) ∧
    (∀ theta1 theta2 : ℚ, |theta1| < |theta2| → |theta2| ≤ L.max_angle_ →
      ∃ g1 g2 : ℚ, gamma_double L theta1 = some g1 ∧ gamma_double L theta2 = some g2 ∧
        g1 ≥ g2) := by
  have hne : L.max_angle_ ≠ 0 := ne_of_gt hmax
  refine ⟨?_, ?_, ?_, ?_⟩
  · rw [gamma_double_inside L 0 hmax (by simpa using le_of_lt hmax)]
    simp [roundDouble_zero, roundDouble_one]
  · intro theta h
    rw [gamma_double_inside L theta hmax (le_of_eq h)]
    have hq : |theta / L.max_angle_| = 1 := by
      rw [abs_div, abs_of_pos hmax, h]
      exact div_self hne
    rw [roundDouble_sq_one _ hq, roundDouble_one]
    simp [roundDouble_zero]
  · intro theta h
    exact gamma_double_outside L theta h
  · intro theta1 theta2 h12 h2
    have h1 : |theta1| ≤ L.max_angle_ := le_trans (le_of_lt h12) h2
    refine ⟨_, _, gamma_double_inside L theta1 hmax h1, gamma_double_inside L theta2 hmax h2, ?_⟩
    have hq : |theta1 / L.max_angle_| ≤ |theta2 / L.max_angle_| := by
      rw [abs_div, abs_div]
      exact div_le_div_of_nonneg_right (le_of_lt h12) (abs_nonneg _)
    have ha : |roundDouble (theta1 / L.max_angle_)| ≤ |roundDouble (theta2 / L.max_angle_)| := by
      unfold roundDouble
      rw [roundSig_abs 53 (by norm_num), roundSig_abs 53 (by norm_num)]
      exact roundSig_mono 53 (by norm_num) _ _ hq
    have hsq : roundDouble (theta1 / L.max_angle_) ^ 2 ≤ roundDouble (theta2 / L.max_angle_) ^ 2 :=
      sq_le_sq.mpr ha
    have hr := roundDouble_mono _ _ hsq
    apply roundDouble_mono
    linarith

/-- C3 as the code has it, at a concrete input: on the example layer
(`max_angle_ = 1/2`) the angles 1/4 and 1/2 give values in decreasing order,
3/4 and 0. -/
theorem gamma_double_shape_witness :
    (0 : ℚ) < (exampleLayer 0).max_angle_ ∧
    gamma_double (exampleLayer 0) (1 / 4) = some (3 / 4) ∧
    gamma_double (exampleLayer 0) (1 / 2) = some 0 ∧
    ∃ g1 g2 : ℚ, gamma_double (exampleLayer 0) (1 / 4) = some g1 ∧
      gamma_double (exampleLayer 0) (1 / 2) = some g2 ∧ g1 ≥ g2 :=
  ⟨by decide!, by decide!, by decide!,
    (gamma_double_shape (exampleLayer 0) (by decide!)).2.2.2 (1 / 4) (1 / 2) (by decide!)
      (by decide!)⟩

/-- C3 fails as stated: with `max_angle_ = 1` the angles `1e-9` and `2e-9`
(`|theta1| < |theta2| <= max_angle_`) both give `gamma = 1.0`, because
`1 - 1e-18` and `1 - 4e-18` round to the `double` 1.0; `gamma(theta1)` is not
greater than `gamma(theta2)`. -/
theorem gamma_double_shape_counterexample :
    ((0 : ℚ) < ({ exampleLayer 0 with max_angle_ := 1 } : RangeSensorLayer).max_angle_ ∧
      |(1 / 1000000000 : ℚ)| < |(2 / 1000000000 : ℚ)| ∧
      |(2 / 1000000000 : ℚ)|
        ≤ ({ exampleLayer 0 with max_angle_ := 1 } : RangeSensorLayer).max_angle_) ∧
    gamma_double { exampleLayer 0 with max_angle_ := 1 } (1 / 1000000000) = some 1 ∧
    gamma_double { exampleLayer 0 with max_angle_ := 1 } (2 / 1000000000) = some 1 ∧
    ¬ ∃ g1 g2 : ℚ,
      gamma_double { exampleLayer 0 with max_angle_ := 1 } (1 / 1000000000) = some g1 ∧
      gamma_double { exampleLayer 0 with max_angle_ := 1 } (2 / 1000000000) = some g2 ∧
      g1 > g2 := by
  have h1 : gamma_double { exampleLayer 0 with max_angle_ := 1 } (1 / 1000000000) = some 1 := by
    decide!
  have h2 : gamma_double { exampleLayer 0 with max_angle_ := 1 } (2 / 1000000000) = some 1 := by
    decide!
  refine ⟨⟨by decide!, by decide!, by decide!⟩, h1, h2, ?_⟩
  rintro ⟨g1, g2, e1, e2, hgt⟩
  rw [h1] at e1
  rw [h2] at e2
  cases e1
  cases e2
  exact lt_irrefl _ hgt

/-! ## The sensor model beyond the measured range and outside the cone -/

/-- C4: for a measured range `r > 0` and a resolution `> 0`, `sensor_model`
returns exactly `0.5` for every `theta` and every `phi >= r + resolution * r`. -/
theorem sensor_model_zone4 (E : Env) (L : RangeSensorLayer) (r phi theta : ℚ)
    (hr : 0 < r) (hres : 0 < L.resolution_) (hphi : phi ≥ r + L.resolution_ * r) :
    sensor_model E L r phi theta = some (1 / 2) := by
  have hd : 0 < L.resolution_ * r := mul_pos hres hr
  have h1 : ¬ (phi ≥ 0 ∧ phi < r - 2 * L.resolution_ * r) := by
    rintro ⟨_, h⟩
    nlinarith
  have h2 : ¬ phi < r - L.resolution_ * r := by
    intro h
    linarith
  have h3 : ¬ phi < r + L.resolution_ * r := not_lt.mpr hphi
  simp only [sensor_model, h1, h2, h3, if_false]

/-- C4 at a concrete input: `r = 2`, resolution 1, `phi = 5`, `theta = 3`. -/
theorem sensor_model_zone4_witness :
    sensor_model exampleEnv (exampleLayer 0) 2 5 3 = some (1 / 2) :=
  sensor_model_zone4 exampleEnv (exampleLayer 0) 2 5 3 (by norm_num)
    (by norm_num [exampleLayer]) (by norm_num [exampleLayer])

theorem sensor_model_outside (E : Env) (L : RangeSensorLayer) (r phi theta : ℚ)
    (hth : |theta| > L.max_angle_) (hphi : 0 ≤ phi) :
    sensor_model E L r phi theta = some (1 / 2) := by
  simp only [sensor_model, gamma_outside L theta hth, Option.map_some', mul_zero]
  split_ifs with h1 h2 h3
  · simp
  · have hd : L.resolution_ * r ≠ 0 := by
      intro h0
      apply h1
      refine ⟨hphi, ?_⟩
      have h20 : 2 * L.resolution_ * r = 0 := by linear_combination 2 * h0
      rw [h20]
      rw [h0] at h2
      exact h2
    simp [fdiv, hd]
  · have hd : L.resolution_ * r ≠ 0 := by
      intro h0
      rw [h0] at h2 h3
      exact h2 (by linarith)
    simp [fdiv, hd]
  · rfl

theorem update_cell_detect (E : Env) (L : RangeSensorLayer) (ox oy ot r nx ny : ℚ)
    (x y : Nat) (s q : ℚ) (hmap : E.worldToMap L nx ny = some (x, y))
    (hs : sensor_model E L r (E.sqrt ((nx - ox) * (nx - ox) + (ny - oy) * (ny - oy)))
      (E.normalize_angle (E.atan2 (ny - oy) (nx - ox) - ot)) = some s)
    (hq : new_prob s (E.to_prob (getCost L x y)) = some q) :
    update_cell E L ox oy ot r nx ny false = some (setCost L x y (E.to_cost q)) := by
  simp [update_cell, hmap, hs, hq]

/-- C5: in a non-clearing update a cell with `|theta| > max_angle_` is
unaffected: `sensor_model(r, phi, theta)` is `0.5` for every `r` and every
`phi >= 0`, and `update_cell` computes for the cell a probability equal to its
prior (and stores `to_cost` of it), for every prior. -/
theorem update_cell_outside_cone (E : Env) (L : RangeSensorLayer) :
    (∀ r phi theta : ℚ, |theta| > L.max_angle_ → 0 ≤ phi →
      sensor_model E L r phi theta = some (1 / 2)) ∧
    (∀ prior : ℚ, 0 < prior → prior < 1 → new_prob (1 / 2) prior = some prior) ∧
    (∀ (ox oy ot r nx ny : ℚ) (x y : Nat), E.worldToMap L nx ny = some (x, y) →
      |E.normalize_angle (E.atan2 (ny - oy) (nx - ox) - ot)| > L.max_angle_ →
      0 ≤ E.sqrt ((nx - ox) * (nx - ox) + (ny - oy) * (ny - oy)) →
      update_cell E L ox oy ot r nx ny false
        = some (setCost L x y (E.to_cost (E.to_prob (getCost L x y))))) := by
  refine ⟨fun r phi theta hth hphi => sensor_model_outside E L r phi theta hth hphi,
    fun prior _ _ => new_prob_half prior, ?_⟩
  intro ox oy ot r nx ny x y hmap hth hphi
  exact update_cell_detect E L ox oy ot r nx ny x y (1 / 2) _ hmap
    (sensor_model_outside E L r _ _ hth hphi) (new_prob_half _)

/-- C5 at a concrete input: beam from (1/2, 1/2) along the x axis, range 2,
cell (0, 2) at angle 11/7 > 1/2; the stored value 127 is written back. -/
theorem update_cell_outside_cone_witness :
    ((update_cell exampleEnv (exampleLayer 127) (1 / 2) (1 / 2) 0 2 (1 / 2) (5 / 2) false).map
      fun L => getCost L 0 2) = some 127 := by
  rw [(update_cell_outside_cone exampleEnv (exampleLayer 127)).2.2 (1 / 2) (1 / 2) 0 2
    (1 / 2) (5 / 2) 0 2 (by decide!) (by decide!) (by decide!)]
  decide!

/-! ## The detection bump -/

theorem new_prob_gt (s p : ℚ) (hs : 1 / 2 < s) (hs1 : s ≤ 1) (hp0 : 0 < p) (hp1 : p < 1) :
    ∃ q : ℚ, new_prob s p = some q ∧ p < q := by
  have hD : 0 < s * p + (1 - s) * (1 - p) := by
    have h1 : 0 < s * p := mul_pos (by linarith) hp0
    have h2 : 0 ≤ (1 - s) * (1 - p) := mul_nonneg (by linarith) (by linarith)
    linarith
  refine ⟨s * p / (s * p + (1 - s) * (1 - p)), ?_, ?_⟩
  · simp [new_prob, fdiv, ne_of_gt hD]
  · rw [lt_div_iff₀ hD]
    have h3 : 0 < (2 * s - 1) * (1 - p) := mul_pos (by linarith) (by linarith)
    nlinarith

theorem sensor_model_bump (E : Env) (L : RangeSensorLayer) (r phi theta : ℚ)
    (hr : 0 < r) (hres : 0 < L.resolution_) (hth : |theta| < L.max_angle_)
    (hlo : r - L.resolution_ * r < phi) (hhi : phi < r + L.resolution_ * r)
    (ht0 : -1 ≤ E.tanh (2 * (phi - L.phi_v_))) (ht1 : E.tanh (2 * (phi - L.phi_v_)) < 1) :
    ∃ s : ℚ, sensor_model E L r phi theta = some s ∧ 1 / 2 < s ∧ s ≤ 1 := by
  have hmax : 0 < L.max_angle_ := lt_of_le_of_lt (abs_nonneg theta) hth
  have hd : 0 < L.resolution_ * r := mul_pos hres hr
  have h1 : ¬ (phi ≥ 0 ∧ phi < r - 2 * L.resolution_ * r) := by
    rintro ⟨_, h⟩
    nlinarith
  have h2 : ¬ phi < r - L.resolution_ * r := not_lt.mpr (le_of_lt hlo)
  -- the two attenuation factors
  have hg0 : 0 < 1 - (theta / L.max_angle_) ^ 2 := by
    have hlt : |theta / L.max_angle_| < 1 := by
      rw [abs_div, abs_of_pos hmax]
      exact (div_lt_one hmax).mpr hth
    have := (sq_lt_one_iff_abs_lt_one (theta / L.max_angle_)).mpr hlt
    linarith
  have hg1 : 1 - (theta / L.max_angle_) ^ 2 ≤ 1 := by
    have := sq_nonneg (theta / L.max_angle_)
    linarith
  have hdl0 : 0 < delta E L phi := by unfold delta; linarith
  have hdl1 : delta E L phi ≤ 1 := by unfold delta; linarith
  have hl0 : 0 < delta E L phi * (1 - (theta / L.max_angle_) ^ 2) := mul_pos hdl0 hg0
  have hl1 : delta E L phi * (1 - (theta / L.max_angle_) ^ 2) ≤ 1 := by
    calc delta E L phi * (1 - (theta / L.max_angle_) ^ 2)
        ≤ 1 * 1 := mul_le_mul hdl1 hg1 (le_of_lt hg0) (by norm_num)
      _ = 1 := by norm_num
  -- the normalised radial offset
  have hJ : ((r - phi) / (L.resolution_ * r)) ^ 2 < 1 := by
    apply (sq_lt_one_iff_abs_lt_one _).mpr
    rw [abs_div, abs_of_pos hd]
    apply (div_lt_one hd).mpr
    rw [abs_lt]
    constructor <;> linarith
  have hJ0 : 0 ≤ ((r - phi) / (L.resolution_ * r)) ^ 2 := sq_nonneg _
  refine ⟨delta E L phi * (1 - (theta / L.max_angle_) ^ 2)
      * ((1 - (1 / 2) * ((r - phi) / (L.resolution_ * r)) ^ 2) - 1 / 2) + 1 / 2, ?_, ?_, ?_⟩
  · simp [sensor_model, gamma_inside L theta hmax (le_of_lt hth), h1, h2, hhi, fdiv,
      ne_of_gt hd]
  · nlinarith
  · nlinarith

theorem sensor_model_bump_saturated (E : Env) (L : RangeSensorLayer) (r phi theta : ℚ)
    (hr : 0 < r) (hres : 0 < L.resolution_) (hth : |theta| < L.max_angle_)
    (hlo : r - L.resolution_ * r < phi) (hhi : phi < r + L.resolution_ * r)
    (hdl : delta E L phi = 0) :
    sensor_model E L r phi theta = some (1 / 2) := by
  have hmax : 0 < L.max_angle_ := lt_of_le_of_lt (abs_nonneg theta) hth
  have hd : 0 < L.resolution_ * r := mul_pos hres hr
  have h1 : ¬ (phi ≥ 0 ∧ phi < r - 2 * L.resolution_ * r) := by
    rintro ⟨_, h⟩
    nlinarith
  have h2 : ¬ phi < r - L.resolution_ * r := not_lt.mpr (le_of_lt hlo)
  simp [sensor_model, gamma_inside L theta hmax (le_of_lt hth), h1, h2, hhi, fdiv,
    ne_of_gt hd, hdl]

theorem delta_eq_zero_iff (E : Env) (L : RangeSensorLayer) (phi : ℚ) :
    delta E L phi = 0 ↔ E.tanh (2 * (phi - L.phi_v_)) = 1 := by
  unfold delta
  constructor <;> intro h <;> linarith

/-- C6 as the code has it: in a non-clearing update with `r > 0` and resolution
`> 0`, for a cell with `|theta| < max_angle_` and
`r - resolution*r < phi < r + resolution*r`, and `tanh` taking at
`2*(phi - phi_v_)` a value in `[-1, 1]`, `sensor_model` returns a likelihood
`s >= 0.5` and for every prior `p` in (0,1) the probability `update_cell`
computes is `>= p`.  Where that value of `tanh` is below 1, `s > 0.5` and the
probability is `> p`; where `delta(phi)` is 0 (that value of `tanh` is exactly
1), `s = 0.5` and the probability is `p`, and `update_cell` stores `to_cost`
of the prior. -/
theorem update_cell_detection_bump (E : Env) (L : RangeSensorLayer) :
    (∀ r phi theta : ℚ, 0 < r → 0 < L.resolution_ → |theta| < L.max_angle_ →
      r - L.resolution_ * r < phi → phi < r + L.resolution_ * r →
      -1 ≤ E.tanh (2 * (phi - L.phi_v_)) → E.tanh (2 * (phi - L.phi_v_)) ≤ 1 →
      ∃ s : ℚ, sensor_model E L r phi theta = some s ∧ 1 / 2 ≤ s ∧
        (∀ p : ℚ, 0 < p → p < 1 → ∃ q : ℚ, new_prob s p = some q ∧ p ≤ q) ∧
        (E.tanh (2 * (phi - L.phi_v_)) < 1 →
          1 / 2 < s ∧ ∀ p : ℚ, 0 < p → p < 1 → ∃ q : ℚ, new_prob s p = some q ∧ p < q) ∧
        (delta E L phi = 0 →
          s = 1 / 2 ∧ ∀ p : ℚ, new_prob s p = some p)) ∧
    (∀ (ox oy ot r nx ny : ℚ) (x y : Nat), E.worldToMap L nx ny = some (x, y) →
      0 < r → 0 < L.resolution_ →
      |E.normalize_angle (E.atan2 (ny - oy) (nx - ox) - ot)| < L.max_angle_ →
      r - L.resolution_ * r < E.sqrt ((nx - ox) * (nx - ox) + (ny - oy) * (ny - oy)) →
      E.sqrt ((nx - ox) * (nx - ox) + (ny - oy) * (ny - oy)) < r + L.resolution_ * r →
      -1 ≤ E.tanh (2 * (E.sqrt ((nx - ox) * (nx - ox) + (ny - oy) * (ny - oy)) - L.phi_v_)) →
      E.tanh (2 * (E.sqrt ((nx - ox) * (nx - ox) + (ny - oy) * (ny - oy)) - L.phi_v_)) < 1 →
      0 < E.to_prob (getCost L x y) → E.to_prob (getCost L x y) < 1 →
      ∃ q : ℚ, E.to_prob (getCost L x y) < q ∧
        update_cell E L ox oy ot r nx ny false = some (setCost L x y (E.to_cost q))) ∧
    (∀ (ox oy ot r nx ny : ℚ) (x y : Nat), E.worldToMap L nx ny = some (x, y) →
      0 < r → 0 < L.resolution_ →
      |E.normalize_angle (E.atan2 (ny - oy) (nx - ox) - ot)| < L.max_angle_ →
      r - L.resolution_ * r < E.sqrt ((nx - ox) * (nx - ox) + (ny - oy) * (ny - oy)) →
      E.sqrt ((nx - ox) * (nx - ox) + (ny - oy) * (ny - oy)) < r + L.resolution_ * r →
      delta E L (E.sqrt ((nx - ox) * (nx - ox) + (ny - oy) * (ny - oy))) = 0 →
      update_cell E L ox oy ot r nx ny false
        = some (setCost L x y (E.to_cost (E.to_prob (getCost L x y))))) := by
  refine ⟨?_, ?_, ?_⟩
  · intro r phi theta hr hres hth hlo hhi ht0 ht1
    rcases lt_or_eq_of_le ht1 with hlt | heq
    · obtain ⟨s, hs, hs0, hs1⟩ := sensor_model_bump E L r phi theta hr hres hth hlo hhi ht0 hlt
      refine ⟨s, hs, le_of_lt hs0, ?_, ?_, ?_⟩
      · intro p hp0 hp1
        obtain ⟨q, hq, hpq⟩ := new_prob_gt s p hs0 hs1 hp0 hp1
        exact ⟨q, hq, le_of_lt hpq⟩
      · intro _
        exact ⟨hs0, fun p hp0 hp1 => new_prob_gt s p hs0 hs1 hp0 hp1⟩
      · intro h1
        exact absurd ((delta_eq_zero_iff E L phi).mp h1) (ne_of_lt hlt)
    · refine ⟨1 / 2, sensor_model_bump_saturated E L r phi theta hr hres hth hlo hhi
        ((delta_eq_zero_iff E L phi).mpr heq), le_refl _, ?_, ?_, ?_⟩
      · intro p _ _
        exact ⟨p, new_prob_half p, le_refl _⟩
      · intro h1
        exact absurd heq (ne_of_lt h1)
      · intro _
        exact ⟨rfl, new_prob_half⟩
  · intro ox oy ot r nx ny x y hmap hr hres hth hlo hhi ht0 ht1 hp0 hp1
    obtain ⟨s, hs, hs0, hs1⟩ := sensor_model_bump E L r _ _ hr hres hth hlo hhi ht0 ht1
    obtain ⟨q, hq, hpq⟩ := new_prob_gt s _ hs0 hs1 hp0 hp1
    exact ⟨q, hpq, update_cell_detect E L ox oy ot r nx ny x y s q hmap hs hq⟩
  · intro ox oy ot r nx ny x y hmap hr hres hth hlo hhi ht
    exact update_cell_detect E L ox oy ot r nx ny x y (1 / 2) _ hmap
      (sensor_model_bump_saturated E L r _ _ hr hres hth hlo hhi ht) (new_prob_half _)

/-- C6 as the code has it, at a concrete input: beam from (1/2, 1/2) along the
x axis, range 2, cell (2, 0) on the axis at distance 2, prior 127/254; `tanh`
is 0.92 there and the probability computed is above the prior. -/
theorem update_cell_detection_bump_witness :
    ∃ q : ℚ, exampleEnv.to_prob (getCost (exampleLayer 127) 2 0) < q ∧
      update_cell exampleEnv (exampleLayer 127) (1 / 2) (1 / 2) 0 2 (5 / 2) (1 / 2) false
        = some (setCost (exampleLayer 127) 2 0 (exampleEnv.to_cost q)) :=
  (update_cell_detection_bump exampleEnv (exampleLayer 127)).2.1 (1 / 2) (1 / 2) 0 2 (5 / 2)
    (1 / 2) 2 0 (by decide!) (by decide!) (by decide!) (by decide!) (by decide!) (by decide!)
    (by decide!) (by decide!) (by decide!) (by decide!)

/-- C6 fails as stated: a non-clearing reading of range 12 with the sensor at
(-9.5, 0.5) looking along the x axis, resolution 1, `max_angle_ = 0.5` and
`phi_v_ = 1.2`.  The cell (2, 0) lies on the axis (`theta = 0`) at `phi = 12`,
inside the bump; `tanh(2 * (12 - 1.2)) = tanh(21.6)` is exactly 1.0, so
`delta = 0`, the likelihood is exactly 0.5, not above it, and for the prior
`127/254` the probability computed is the prior, not above it: the cell keeps
127. -/
theorem update_cell_detection_bump_counterexample :
    ((0 : ℚ) < 12 ∧ 0 < (exampleLayer 127).resolution_ ∧
      |(0 : ℚ)| < (exampleLayer 127).max_angle_ ∧
      12 - (exampleLayer 127).resolution_ * 12 < (12 : ℚ) ∧
      (12 : ℚ) < 12 + (exampleLayer 127).resolution_ * 12) ∧
    exampleEnv.tanh (2 * (12 - (exampleLayer 127).phi_v_)) = 1 ∧
    delta exampleEnv (exampleLayer 127) 12 = 0 ∧
    sensor_model exampleEnv (exampleLayer 127) 12 12 0 = some (1 / 2) ∧
    (¬ ∃ s : ℚ, sensor_model exampleEnv (exampleLayer 127) 12 12 0 = some s ∧ 1 / 2 < s) ∧
    exampleEnv.to_prob (getCost (exampleLayer 127) 2 0) = 1 / 2 ∧
    new_prob (1 / 2) (1 / 2) = some (1 / 2) ∧
    (update_cell exampleEnv (exampleLayer 127) (-19 / 2) (1 / 2) 0 12 (5 / 2) (1 / 2) false).map
      (fun L => getCost L 2 0) = some 127 := by
  have hs : sensor_model exampleEnv (exampleLayer 127) 12 12 0 = some (1 / 2) := by decide!
  refine ⟨⟨by decide!, by decide!, by decide!, by decide!, by decide!⟩, by decide!,
    by decide!, hs, ?_, by decide!, by decide!, by decide!⟩
  rintro ⟨s, e, hgt⟩
  rw [hs] at e
  cases e
  exact lt_irrefl _ hgt

/-! ## The clearing update -/

theorem new_prob_zero (p : ℚ) : new_prob 0 p = if p = 1 then none else some 0 := by
  by_cases h : p = 1
  · subst h
    simp [new_prob, fdiv]
  · have h1 : (1 : ℚ) - p ≠ 0 := fun h0 => h (by linarith)
    simp [new_prob, fdiv, h, h1]

/-- The clearing update where it is defined: a cell with `|theta| > max_angle_`
is left as it is, and a cell inside the cone whose prior is not 1 gets
`new_prob = 0`, stored as `to_cost(0)`. -/
theorem update_cell_clear (E : Env) (L : RangeSensorLayer) (ox oy ot r nx ny : ℚ)
    (x y : Nat) (hmap : E.worldToMap L nx ny = some (x, y)) :
    (|E.normalize_angle (E.atan2 (ny - oy) (nx - ox) - ot)| > L.max_angle_ →
      update_cell E L ox oy ot r nx ny true = some L) ∧
    (|E.normalize_angle (E.atan2 (ny - oy) (nx - ox) - ot)| ≤ L.max_angle_ →
      E.to_prob (getCost L x y) ≠ 1 →
      new_prob 0 (E.to_prob (getCost L x y)) = some 0 ∧
      update_cell E L ox oy ot r nx ny true = some (setCost L x y (E.to_cost 0))) := by
  constructor
  · intro hth
    simp [update_cell, hmap, hth]
  · intro hth hp
    have hth1 : ¬ L.max_angle_ < |E.normalize_angle (E.atan2 (ny - oy) (nx - ox) - ot)| :=
      not_lt.mpr hth
    simp [update_cell, hmap, hth1, new_prob_zero, hp]

/-- C7, the failing case: in a clearing update (`clear = true`, `sensor = 0`) of
a cell inside the cone (`|theta| <= max_angle_`) whose stored value has prior
`to_prob = 1`, both `prob_occ` and `prob_not` are 0, `new_prob` is `0/0`, and
`update_cell` stores no defined probability. -/
theorem update_cell_clear_prior_one (E : Env) (L : RangeSensorLayer) (ox oy ot r nx ny : ℚ)
    (x y : Nat) (hmap : E.worldToMap L nx ny = some (x, y))
    (hth : |E.normalize_angle (E.atan2 (ny - oy) (nx - ox) - ot)| ≤ L.max_angle_)
    (hp : E.to_prob (getCost L x y) = 1) :
    new_prob 0 (E.to_prob (getCost L x y)) = none ∧
      update_cell E L ox oy ot r nx ny true = none := by
  have hth1 : ¬ L.max_angle_ < |E.normalize_angle (E.atan2 (ny - oy) (nx - ox) - ot)| :=
    not_lt.mpr hth
  constructor
  · simp [new_prob_zero, hp]
  · simp [update_cell, hmap, hth1, new_prob_zero, hp]

/-- C7 at the failing input: every cell of the example layer holds 254, whose
prior is 254/254 = 1; the clearing update of the on-axis cell (2, 0) is
undefined. -/
theorem update_cell_clear_prior_one_witness :
    getCost (exampleLayer 254) 2 0 = 254 ∧
      new_prob 0 (exampleEnv.to_prob (getCost (exampleLayer 254) 2 0)) = none ∧
      update_cell exampleEnv (exampleLayer 254) (1 / 2) (1 / 2) 0 2 (5 / 2) (1 / 2) true = none :=
  ⟨rfl, update_cell_clear_prior_one exampleEnv (exampleLayer 254) (1 / 2) (1 / 2) 0 2 (5 / 2)
    (1 / 2) 2 0 (by decide!) (by decide!) (by decide!)⟩

/-! ## Classification of variable-range readings -/

theorem Flt.le_of_lt_false (a b : Flt) (h : Flt.lt a b = true) : Flt.le b a = false := by
  cases a <;> cases b <;> simp [Flt.lt, Flt.le, Flt.eq] at h ⊢
  rename_i x y
  exact ⟨le_of_lt h, ne_of_gt h⟩

theorem syncCB_loop_false_iff (ranges : Array Flt) (range : Flt) :
    ∀ n i : Nat, syncCB_loop ranges range n i = false ↔
      ∀ k : Nat, k < n → (ranges.getD (i + k) Flt.nan).isfinite = true →
        Flt.lt (ranges.getD (i + k) Flt.nan) (Flt.add range (Flt.fin TRUST_DISTANCE))
          = false := by
  intro n
  induction n with
  | zero => intro i; simp [syncCB_loop]
  | succ n ih =>
    intro i
    simp only [syncCB_loop]
    constructor
    · intro h k hk hfin
      rcases Nat.eq_zero_or_pos k with h0 | hpos
      · subst h0
        simp only [Nat.add_zero] at hfin ⊢
        split_ifs at h with h1 h2
        · rw [hfin] at h1
          exact absurd h1 (by simp)
        · exact Bool.eq_false_iff.mpr h2
      · have hrest : syncCB_loop ranges range n (i + 1) = false := by
          split_ifs at h with h1 h2
          · exact h
          · exact h
        obtain ⟨k1, rfl⟩ : ∃ k1, k = k1 + 1 := ⟨k - 1, by omega⟩
        have := (ih (i + 1)).mp hrest k1 (by omega)
        have e : i + 1 + k1 = i + (k1 + 1) := by omega
        rw [e] at this
        exact this hfin
    · intro h
      have hrest : syncCB_loop ranges range n (i + 1) = false := by
        apply (ih (i + 1)).mpr
        intro k hk hfin
        have e : i + 1 + k = i + (k + 1) := by omega
        rw [e] at hfin ⊢
        exact h (k + 1) (by omega) hfin
      have h0 := h 0 (by omega)
      simp only [Nat.add_zero] at h0
      split_ifs with h1 h2
      · exact hrest
      · have hfin : (ranges.getD i Flt.nan).isfinite = true :=
          Bool.not_eq_false _ ▸ h1
        rw [h0 hfin] at h2
        exact absurd h2 (by simp)
      · exact hrest

theorem syncCB_reads_in_bounds_iff (L : RangeSensorLayer)
    (hsz : L.scan_msgs_.ranges.size < 2 ^ 64) :
    syncCB_reads_in_bounds L = true ↔ 100 < L.scan_msgs_.ranges.size := by
  simp only [syncCB_reads_in_bounds, decide_eq_true_eq]
  constructor
  · rintro ⟨h1, h2, h3⟩
    omega
  · intro h
    refine ⟨?_, ?_, ?_⟩ <;> omega

/-- C8 as the code has it: for a variable-range reading with
`min_range < range < max_range` and a buffered scan on which the logging reads
of `syncCB` are inside the array (the scan then has more than 100 samples, and
the 100 reads of the loop are inside the array too), `processVariableRangeMsg`
calls the grid update with `clear_sensor_cone` equal to the flag `fusion` that
`syncCB` has just computed from the buffered scan; the flag is false exactly
when no finite scan sample with index in `[size/2 - 50, size/2 + 50)` is below
the `float` sum `range + TRUST_DISTANCE`. -/
theorem processVariableRangeMsg_clear_flag (updateCostmap : GridUpdate)
    (L : RangeSensorLayer) (range_message : Range)
    (hlo : Flt.lt range_message.min_range range_message.range = true)
    (hhi : Flt.lt range_message.range range_message.max_range = true)
    (hsz : L.scan_msgs_.ranges.size < 2 ^ 64)
    (hin : syncCB_reads_in_bounds L = true) :
    100 < L.scan_msgs_.ranges.size ∧
    (∀ k : Nat, k < 100 →
      L.scan_msgs_.ranges.size / 2 - 50 + k < L.scan_msgs_.ranges.size) ∧
    processVariableRangeMsg updateCostmap L range_message
      = updateCostmap (syncCB L range_message) range_message
          (syncCB L range_message).fusion ∧
    ((syncCB L range_message).fusion = false ↔
      ∀ k : Nat, k < 100 →
        (L.scan_msgs_.ranges.getD (L.scan_msgs_.ranges.size / 2 - 50 + k) Flt.nan).isfinite
          = true →
        Flt.lt (L.scan_msgs_.ranges.getD (L.scan_msgs_.ranges.size / 2 - 50 + k) Flt.nan)
          (Flt.add range_message.range (Flt.fin TRUST_DISTANCE)) = false) := by
  have h1 : Flt.le range_message.range range_message.min_range = false :=
    Flt.le_of_lt_false _ _ hlo
  have h2 : Flt.ge range_message.range range_message.max_range = false :=
    Flt.le_of_lt_false _ _ hhi
  have hsize : 100 < L.scan_msgs_.ranges.size := (syncCB_reads_in_bounds_iff L hsz).mp hin
  have hstart : (L.scan_msgs_.ranges.size / 2 + 2 ^ 64 - 50) % 2 ^ 64
      = L.scan_msgs_.ranges.size / 2 - 50 := by omega
  have hcount : (L.scan_msgs_.ranges.size / 2 + 50) % 2 ^ 64
      - (L.scan_msgs_.ranges.size / 2 + 2 ^ 64 - 50) % 2 ^ 64 = 100 := by omega
  refine ⟨hsize, ?_, ?_, ?_⟩
  · intro k hk
    omega
  · simp only [processVariableRangeMsg, h1, h2]
    cases hf : (syncCB L range_message).fusion <;> simp
  · have h := syncCB_loop_false_iff L.scan_msgs_.ranges range_message.range
      ((L.scan_msgs_.ranges.size / 2 + 50) % 2 ^ 64
        - (L.scan_msgs_.ranges.size / 2 + 2 ^ 64 - 50) % 2 ^ 64)
      ((L.scan_msgs_.ranges.size / 2 + 2 ^ 64 - 50) % 2 ^ 64)
    simp only [syncCB]
    rw [hcount, hstart] at h ⊢
    exact h

/-- C8 as the code has it, at a concrete input: with a buffered scan of 101
samples at distance 9 (9 is not below 5 + 0.65) the reading of range 5 (bounds
0.1 and 10) reaches the grid update with the flag false. -/
theorem processVariableRangeMsg_clear_flag_witness :
    syncCB_reads_in_bounds (exampleScanLayer 9) = true ∧
    ∀ updateCostmap : GridUpdate,
      processVariableRangeMsg updateCostmap (exampleScanLayer 9) exampleReading
        = updateCostmap (syncCB (exampleScanLayer 9) exampleReading) exampleReading false := by
  have hf : (syncCB (exampleScanLayer 9) exampleReading).fusion = false := by decide!
  refine ⟨by decide!, fun updateCostmap => ?_⟩
  rw [(processVariableRangeMsg_clear_flag updateCostmap (exampleScanLayer 9) exampleReading
    (by decide!) (by decide!) (by decide!) (by decide!)).2.2.1, hf]

/-- C8 fails as stated: with range 5, `min_range` 0.1, `max_range` 10 and a
buffered scan of 101 samples at distance 1 (1 < 5 + 0.65; every read of `syncCB`
is inside the array), `syncCB` sets `fusion` and the grid update is called with
`clear_sensor_cone = true`, not `false`. -/
theorem processVariableRangeMsg_clear_flag_counterexample :
    (Flt.lt exampleReading.min_range exampleReading.range = true ∧
      Flt.lt exampleReading.range exampleReading.max_range = true ∧
      syncCB_reads_in_bounds (exampleScanLayer 1) = true) ∧
    (∀ updateCostmap : GridUpdate,
      processVariableRangeMsg updateCostmap (exampleScanLayer 1) exampleReading
        = updateCostmap (syncCB (exampleScanLayer 1) exampleReading) exampleReading true) ∧
    ¬ (∀ updateCostmap : GridUpdate,
      processVariableRangeMsg updateCostmap (exampleScanLayer 1) exampleReading
        = updateCostmap (syncCB (exampleScanLayer 1) exampleReading) exampleReading false) := by
  have hf : (syncCB (exampleScanLayer 1) exampleReading).fusion = true := by decide!
  have hle : Flt.le exampleReading.range exampleReading.min_range = false := by decide!
  have hcall : ∀ updateCostmap : GridUpdate,
      processVariableRangeMsg updateCostmap (exampleScanLayer 1) exampleReading
        = updateCostmap (syncCB (exampleScanLayer 1) exampleReading) exampleReading true := by
    intro updateCostmap
    simp [processVariableRangeMsg, hle, hf]
  refine ⟨⟨by decide!, by decide!, by decide!⟩, hcall, ?_⟩
  intro h
  have h1 := h (fun L _ c => { L with current_ := c })
  rw [hcall] at h1
  have h2 := congrArg RangeSensorLayer.current_ h1
  simp at h2

/-! ## Dropped readings -/

/-- C9: a dropped reading leaves the whole layer (grid, dirty-region bounds,
reading counter, last-reading time and every other member) as it was: under
FIXED handling a reading with a finite range, and a reading of `+inf` while
`clear_on_max_reading_` is false; under VARIABLE handling a reading with
`range <= min_range`; also when the handling is chosen by `processRangeMsg`. -/
theorem dropped_reading_keeps_layer (updateCostmap : GridUpdate) (L : RangeSensorLayer) :
    (∀ (range_message : Range) (q : ℚ), range_message.range = Flt.fin q →
      processFixedRangeMsg updateCostmap L range_message = L) ∧
    (∀ range_message : Range, range_message.range = Flt.posInf →
      L.clear_on_max_reading_ = false →
      processFixedRangeMsg updateCostmap L range_message = L) ∧
    (∀ range_message : Range,
      Flt.le range_message.range range_message.min_range = true →
      processVariableRangeMsg updateCostmap L range_message = L) ∧
    (∀ (range_message : Range) (q : ℚ), range_message.range = Flt.fin q →
      Flt.eq range_message.min_range range_message.max_range = true →
      processRangeMsg updateCostmap L range_message = L) ∧
    (∀ range_message : Range, range_message.range = Flt.posInf →
      L.clear_on_max_reading_ = false →
      Flt.eq range_message.min_range range_message.max_range = true →
      processRangeMsg updateCostmap L range_message = L) ∧
    (∀ range_message : Range,
      Flt.le range_message.range range_message.min_range = true →
      Flt.eq range_message.min_range range_message.max_range = false →
      processRangeMsg updateCostmap L range_message = L) := by
  have hfin : ∀ (range_message : Range) (q : ℚ), range_message.range = Flt.fin q →
      processFixedRangeMsg updateCostmap L range_message = L := by
    intro range_message q hq
    simp [processFixedRangeMsg, hq, Flt.isinf]
  have hinf : ∀ range_message : Range, range_message.range = Flt.posInf →
      L.clear_on_max_reading_ = false →
      processFixedRangeMsg updateCostmap L range_message = L := by
    intro range_message hr hc
    simp [processFixedRangeMsg, hr, hc, Flt.isinf, Flt.gt, Flt.lt]
  have hvar : ∀ range_message : Range,
      Flt.le range_message.range range_message.min_range = true →
      processVariableRangeMsg updateCostmap L range_message = L := by
    intro range_message hle
    simp [processVariableRangeMsg, hle]
  refine ⟨hfin, hinf, hvar, ?_, ?_, ?_⟩
  · intro range_message q hq heq
    simp only [processRangeMsg, heq, if_true]
    exact hfin range_message q hq
  · intro range_message hr hc heq
    simp only [processRangeMsg, heq, if_true]
    exact hinf range_message hr hc
  · intro range_message hle heq
    simp [processRangeMsg, heq]
    exact hvar range_message hle

/-- C9 at concrete inputs: a grid update that would mark cell (0, 0) is never
reached by a fixed-range reading of 5, nor by a variable-range reading whose
range 5 is not above its `min_range` 5. -/
theorem dropped_reading_keeps_layer_witness :
    processFixedRangeMsg (fun L _ _ => setCost L 0 0 233) (exampleLayer 0) exampleReading
      = exampleLayer 0 ∧
    processVariableRangeMsg (fun L _ _ => setCost L 0 0 233) (exampleLayer 0)
      { exampleReading with min_range := Flt.fin 5 } = exampleLayer 0 :=
  ⟨(dropped_reading_keeps_layer (fun L _ _ => setCost L 0 0 233) (exampleLayer 0)).1
      exampleReading 5 rfl,
    (dropped_reading_keeps_layer (fun L _ _ => setCost L 0 0 233) (exampleLayer 0)).2.2.1
      { exampleReading with min_range := Flt.fin 5 } (by decide!)⟩

/-! ## Fixed-range readings -/

theorem GridOnly.refl (L : RangeSensorLayer) : GridOnly L L := rfl

theorem GridOnly.trans {L L1 L2 : RangeSensorLayer} (h1 : GridOnly L L1) (h2 : GridOnly L1 L2) :
    GridOnly L L2 := by
  unfold GridOnly at *
  rw [h2, h1]

theorem GridOnly.touch (L : RangeSensorLayer) (x y : ℚ) : GridOnly L (touch L x y) := rfl

theorem GridOnly.setCost (L : RangeSensorLayer) (mx my cost : Nat) :
    GridOnly L (setCost L mx my cost) := rfl

theorem GridOnly.setCost_int (L : RangeSensorLayer) (a b : Int) (cost : Nat) :
    GridOnly L (setCost_int L a b cost) := rfl

theorem GridOnly.target (E : Env) (L : RangeSensorLayer) (tx ty : ℚ) :
    GridOnly L (updateCostmap_target E L tx ty) := by
  unfold updateCostmap_target
  cases h : E.worldToMap L tx ty with
  | none => exact GridOnly.refl L
  | some p => exact GridOnly.trans (GridOnly.setCost L p.1 p.2 233) (GridOnly.touch _ tx ty)

theorem GridOnly.line (X : Ext) (tx ty theta radius res : ℚ) :
    ∀ (fuel : Nat) (r : ℚ) (L L1 : RangeSensorLayer),
      updateCostmap_line X tx ty theta radius res fuel r L = some L1 → GridOnly L L1 := by
  intro fuel
  induction fuel with
  | zero =>
    intro r L L1 h
    simp only [updateCostmap_line] at h
    split_ifs at h
    · cases h
      exact GridOnly.refl _
  | succ fuel ih =>
    intro r L L1 h
    simp only [updateCostmap_line] at h
    split_ifs at h
    · exact GridOnly.trans (GridOnly.setCost_int L _ _ 233) (ih _ _ _ h)
    · cases h
      exact GridOnly.refl _

theorem GridOnly.update_cell (E : Env) (L L1 : RangeSensorLayer) (ox oy ot r nx ny : ℚ)
    (clear : Bool) (h : update_cell E L ox oy ot r nx ny clear = some L1) : GridOnly L L1 := by
  unfold range_sensor_layer.update_cell at h
  cases hmap : E.worldToMap L nx ny with
  | none =>
    simp only [hmap] at h
    cases h
    exact GridOnly.refl _
  | some p =>
    simp only [hmap] at h
    split_ifs at h
    · cases h
      exact GridOnly.refl _
    all_goals
      simp only [Option.bind_eq_some, Option.map_eq_some'] at h
      obtain ⟨s, _, q, _, hq⟩ := h
      rw [← hq]
      exact GridOnly.setCost L p.1 p.2 _

theorem GridOnly.ys (E : Env) (X : Ext) (ox oy theta range : ℚ) (clear : Bool) (x uby1 : Nat) :
    ∀ (fuel y : Nat) (L L1 : RangeSensorLayer),
      updateCostmap_ys E X ox oy theta range clear x uby1 fuel y L = some L1 →
        GridOnly L L1 := by
  intro fuel
  induction fuel with
  | zero =>
    intro y L L1 h
    simp only [updateCostmap_ys] at h
    split_ifs at h
    · cases h
      exact GridOnly.refl _
  | succ fuel ih =>
    intro y L L1 h
    simp only [updateCostmap_ys] at h
    split_ifs at h
    · simp only [Option.bind_eq_some] at h
      obtain ⟨L2, h2, h3⟩ := h
      exact GridOnly.trans (GridOnly.update_cell E L L2 _ _ _ _ _ _ clear h2) (ih _ _ _ h3)
    · cases h
      exact GridOnly.refl _

theorem GridOnly.xs (E : Env) (X : Ext) (ox oy theta range : ℚ) (clear : Bool)
    (uby0 ubx1 uby1 fuel0 : Nat) :
    ∀ (fuel x : Nat) (L L1 : RangeSensorLayer),
      updateCostmap_xs E X ox oy theta range clear uby0 ubx1 uby1 fuel0 fuel x L = some L1 →
        GridOnly L L1 := by
  intro fuel
  induction fuel with
  | zero =>
    intro x L L1 h
    simp only [updateCostmap_xs] at h
    split_ifs at h
    · cases h
      exact GridOnly.refl _
  | succ fuel ih =>
    intro x L L1 h
    simp only [updateCostmap_xs] at h
    split_ifs at h
    · simp only [Option.bind_eq_some] at h
      obtain ⟨L2, h2, h3⟩ := h
      exact GridOnly.trans (GridOnly.ys E X ox oy theta range clear x uby1 _ _ _ _ h2)
        (ih _ _ _ h3)
    · cases h
      exact GridOnly.refl _

theorem GridOnly.cone (E : Env) (X : Ext) (fuel : Nat) (L : RangeSensorLayer)
    (range_message : Range) (range : ℚ) (c : Cone)
    (h : updateCostmap_cone E X fuel L range_message range = some c) : GridOnly L c.L := by
  unfold updateCostmap_cone at h
  simp only [Option.map_eq_some'] at h
  obtain ⟨L3, h3, hc⟩ := h
  have h12 : GridOnly L (updateCostmap_target E (range_sensor_layer.touch L
      (X.transformPoint range_message.frame_id range_message.stamp 0).1
      (X.transformPoint range_message.frame_id range_message.stamp 0).2)
      (X.transformPoint range_message.frame_id range_message.stamp range).1
      (X.transformPoint range_message.frame_id range_message.stamp range).2) :=
    GridOnly.trans (GridOnly.touch L _ _) (GridOnly.target E _ _ _)
  have h23 : GridOnly L L3 := by
    split_ifs at h3
    · exact GridOnly.trans h12 (GridOnly.line X _ _ _ _ _ _ _ _ _ h3)
    · cases h3
      exact h12
  rw [← hc]
  exact GridOnly.trans h23 (GridOnly.trans (GridOnly.touch L3 _ _) (GridOnly.touch _ _ _))

theorem GridOnly.cells (E : Env) (X : Ext) (fuel : Nat) (c : Cone) (range : ℚ) (clear : Bool)
    (L1 : RangeSensorLayer) (h : updateCostmap_cells E X fuel c range clear = some L1) :
    GridOnly c.L L1 :=
  GridOnly.xs E X _ _ _ _ clear _ _ _ _ _ _ _ _ h

/-! ## The bounds reported by `updateBounds` -/

theorem DBL_MIN_pos : 0 < DBL_MIN := by
  unfold DBL_MIN
  positivity

theorem updateCostmap_nil (process : RangeSensorLayer → Range → RangeSensorLayer)
    (L : RangeSensorLayer) (h : L.range_msgs_buffer_ = []) : updateCostmap process L = L := by
  unfold updateCostmap
  rw [h]
  simp only [List.foldl_nil]
  cases L
  simp_all

/-- What `updateBounds` reports and leaves behind: each reported minimum is
the smaller of the caller's value and the layer's bound after the buffer was
processed, each reported maximum the larger one; the layer's minima are then
set to `DBL_MAX` and its maxima to `DBL_MIN`, which is positive. -/
theorem updateBounds_report (X : Ext) (process : RangeSensorLayer → Range → RangeSensorLayer)
    (L : RangeSensorLayer) (robot_x robot_y robot_yaw min_x min_y max_x max_y : ℚ)
    (hroll : X.isRolling = false) :
    (updateBounds X process L robot_x robot_y robot_yaw min_x min_y max_x max_y).2
      = (min min_x (updateCostmap process L).min_x_, min min_y (updateCostmap process L).min_y_,
          max max_x (updateCostmap process L).max_x_,
          max max_y (updateCostmap process L).max_y_) ∧
    (updateBounds X process L robot_x robot_y robot_yaw min_x min_y max_x max_y).1.min_x_
      = DBL_MAX ∧
    (updateBounds X process L robot_x robot_y robot_yaw min_x min_y max_x max_y).1.min_y_
      = DBL_MAX ∧
    (updateBounds X process L robot_x robot_y robot_yaw min_x min_y max_x max_y).1.max_x_
      = DBL_MIN ∧
    (updateBounds X process L robot_x robot_y robot_yaw min_x min_y max_x max_y).1.max_y_
      = DBL_MIN := by
  unfold updateBounds updateBounds_current
  simp only [hroll, Bool.false_eq_true, if_false]
  split_ifs <;> simp

/-- Points with negative coordinates touched after the reset do not move the
layer's maxima: they stay at `DBL_MIN`. -/
theorem touch_negative_keeps_max (pts : List (ℚ × ℚ)) :
    ∀ L : RangeSensorLayer, L.max_x_ = DBL_MIN → L.max_y_ = DBL_MIN →
      (∀ p ∈ pts, p.1 < 0 ∧ p.2 < 0) →
      (pts.foldl (fun L1 p => touch L1 p.1 p.2) L).max_x_ = DBL_MIN ∧
      (pts.foldl (fun L1 p => touch L1 p.1 p.2) L).max_y_ = DBL_MIN := by
  induction pts with
  | nil => intro L hx hy _; exact ⟨hx, hy⟩
  | cons p rest ih =>
    intro L hx hy hneg
    simp only [List.foldl_cons]
    have hp := hneg p (List.mem_cons_self _ _)
    apply ih
    · simp only [touch, hx]
      exact max_eq_right (le_of_lt (lt_trans hp.1 DBL_MIN_pos))
    · simp only [touch, hy]
      exact max_eq_right (le_of_lt (lt_trans hp.2 DBL_MIN_pos))
    · intro q hq
      exact hneg q (List.mem_cons_of_mem _ hq)

/-- C11, the failing case: in a cycle after the first (the layer's maxima are
the `DBL_MIN` left by the previous `updateBounds`) with no buffered reading
and a caller's region whose `max_x` is below `DBL_MIN` (any `max_x <= 0`),
`updateBounds` reports `max_x = DBL_MIN > 0` instead of the caller's `max_x`;
likewise for `max_y`. -/
theorem updateBounds_max_after_reset (X : Ext)
    (process : RangeSensorLayer → Range → RangeSensorLayer) (L : RangeSensorLayer)
    (robot_x robot_y robot_yaw min_x min_y max_x max_y : ℚ)
    (hroll : X.isRolling = false) (hbuf : L.range_msgs_buffer_ = [])
    (hmx : L.max_x_ = DBL_MIN) (hmy : L.max_y_ = DBL_MIN)
    (hx : max_x < DBL_MIN) (hy : max_y < DBL_MIN) :
    (updateBounds X process L robot_x robot_y robot_yaw min_x min_y max_x max_y).2.2.2.1
        = DBL_MIN ∧
    (updateBounds X process L robot_x robot_y robot_yaw min_x min_y max_x max_y).2.2.2.1
        ≠ max_x ∧
    (updateBounds X process L robot_x robot_y robot_yaw min_x min_y max_x max_y).2.2.2.2
        = DBL_MIN ∧
    (updateBounds X process L robot_x robot_y robot_yaw min_x min_y max_x max_y).2.2.2.2
        ≠ max_y := by
  have hrep := (updateBounds_report X process L robot_x robot_y robot_yaw min_x min_y max_x
    max_y hroll).1
  rw [updateCostmap_nil process L hbuf, hmx, hmy] at hrep
  rw [hrep]
  simp only
  rw [max_eq_right (le_of_lt hx), max_eq_right (le_of_lt hy)]
  exact ⟨rfl, ne_of_gt hx, rfl, ne_of_gt hy⟩

/-- C11 at the failing input: the second of two cycles without readings, the
caller passing the region from (-8, -8) to (-6, -6): the reported `max_x` is
`DBL_MIN`, not -6. -/
theorem updateBounds_max_after_reset_witness :
    (updateBounds (exampleExt 0 0) (fun L _ => L)
      (updateBounds (exampleExt 0 0) (fun L _ => L) (exampleLayer 0) 0 0 0 (-8) (-8) (-6) (-6)).1
      0 0 0 (-8) (-8) (-6) (-6)).2.2.2.1 = DBL_MIN ∧
    (updateBounds (exampleExt 0 0) (fun L _ => L)
      (updateBounds (exampleExt 0 0) (fun L _ => L) (exampleLayer 0) 0 0 0 (-8) (-8) (-6) (-6)).1
      0 0 0 (-8) (-8) (-6) (-6)).2.2.2.1 ≠ -6 :=
  have h := updateBounds_max_after_reset (exampleExt 0 0) (fun L _ => L)
    (updateBounds (exampleExt 0 0) (fun L _ => L) (exampleLayer 0) 0 0 0 (-8) (-8) (-6) (-6)).1
    0 0 0 (-8) (-8) (-6) (-6) rfl (by with_unfolding_all rfl) (by decide!) (by decide!)
    (lt_trans (by norm_num) DBL_MIN_pos) (lt_trans (by norm_num) DBL_MIN_pos)
  ⟨h.1, h.2.1⟩

/-! ## The currency flag and accepted readings -/

theorem updateCostmap_current (process : RangeSensorLayer → Range → RangeSensorLayer)
    (hcur : ∀ (L : RangeSensorLayer) (m : Range), (process L m).current_ = L.current_)
    (L : RangeSensorLayer) : (updateCostmap process L).current_ = L.current_ := by
  unfold updateCostmap
  have key : ∀ (ms : List Range) (L1 : RangeSensorLayer),
      (ms.foldl process L1).current_ = L1.current_ := by
    intro ms
    induction ms with
    | nil => intro L1; rfl
    | cons m rest ih => intro L1; simp only [List.foldl_cons]; rw [ih, hcur]
  rw [key]

theorem updateCostmap_reading_accepted (E : Env) (X : Ext) (fuel : Nat)
    (L L1 : RangeSensorLayer) (range_message : Range) (clear_sensor_cone : Bool)
    (hwait : X.waitForTransform range_message.frame_id range_message.stamp = true)
    (h : updateCostmap_reading E X fuel L range_message clear_sensor_cone = some L1) :
    L1.last_reading_time_ = X.now ∧
      L1.buffered_readings_ = (L.buffered_readings_ + 1) % 2 ^ 32 ∧
      L1.current_ = L.current_ ∧ L1.range_msgs_buffer_ = L.range_msgs_buffer_ := by
  unfold updateCostmap_reading at h
  simp only [hwait, Bool.true_eq_false, if_false] at h
  cases hr : range_message.range with
  | fin range =>
    simp only [hr, Option.bind_eq_some, Option.map_eq_some'] at h
    obtain ⟨c, hc, L6, h6, hL1⟩ := h
    have hg := GridOnly.trans (GridOnly.cone E X fuel _ range_message range c hc)
      (GridOnly.cells E X fuel c range clear_sensor_cone L6 h6)
    unfold GridOnly at hg
    rw [← hL1, hg]
    exact ⟨rfl, rfl, rfl, rfl⟩
  | negInf => simp [hr] at h
  | posInf => simp [hr] at h
  | nan => simp [hr] at h

/-- C12 as the code has it.  `updateBounds` (with a processing function that
leaves `current_` alone, as the per-reading update does) takes `current_` from
true to false only when, after the buffer was processed, the layer is enabled,
`buffered_readings_` is 0, `no_readings_timeout_` is positive and the time
since `last_reading_time_` exceeds it; `updateCosts` and `reset` never take it
from true to false; `reconfigureCB` takes it from true to false exactly when
`config.enabled` differs from `enabled_`; and a reading that reaches the end
of the per-reading update sets `last_reading_time_` to the current time and
increments `buffered_readings_`. -/
theorem current_flag_transitions (E : Env) (X : Ext) (L : RangeSensorLayer)
    (hc : L.current_ = true) :
    (∀ (process : RangeSensorLayer → Range → RangeSensorLayer)
        (robot_x robot_y robot_yaw min_x min_y max_x max_y : ℚ),
      (∀ (L1 : RangeSensorLayer) (m : Range), (process L1 m).current_ = L1.current_) →
      (updateBounds X process L robot_x robot_y robot_yaw min_x min_y max_x max_y).1.current_
        = false →
      (updateBounds X process L robot_x robot_y robot_yaw min_x min_y max_x max_y).1.enabled_
          = true ∧
        (updateBounds X process L robot_x robot_y robot_yaw min_x min_y max_x
          max_y).1.buffered_readings_ = 0 ∧
        0 < (updateBounds X process L robot_x robot_y robot_yaw min_x min_y max_x
          max_y).1.no_readings_timeout_ ∧
        X.now - (updateBounds X process L robot_x robot_y robot_yaw min_x min_y max_x
          max_y).1.last_reading_time_
          > (updateBounds X process L robot_x robot_y robot_yaw min_x min_y max_x
            max_y).1.no_readings_timeout_) ∧
    (∀ (master_grid : Costmap2D) (min_i min_j max_i max_j : Int),
      (updateCosts E L master_grid min_i min_j max_i max_j).1.current_ = true) ∧
    (reset L).current_ = true ∧
    (∀ config : RangeSensorLayerConfig,
      ((reconfigureCB L config).current_ = false ↔ L.enabled_ ≠ config.enabled)) ∧
    (∀ (fuel : Nat) (range_message : Range) (clear_sensor_cone : Bool) (L1 : RangeSensorLayer),
      X.waitForTransform range_message.frame_id range_message.stamp = true →
      updateCostmap_reading E X fuel L range_message clear_sensor_cone = some L1 →
      L1.last_reading_time_ = X.now ∧
        L1.buffered_readings_ = (L.buffered_readings_ + 1) % 2 ^ 32 ∧
        L1.current_ = true) := by
  refine ⟨?_, ?_, ?_, ?_, ?_⟩
  · intro process robot_x robot_y robot_yaw min_x min_y max_x max_y hcur hfalse
    have hL0 : ∀ L0 : RangeSensorLayer, L0.current_ = true →
        ∀ R : RangeSensorLayer,
          R = updateBounds_current X
            { updateCostmap process L0 with
              min_x_ := DBL_MAX, min_y_ := DBL_MAX, max_x_ := DBL_MIN, max_y_ := DBL_MIN } →
          R.current_ = false →
          R.enabled_ = true ∧ R.buffered_readings_ = 0 ∧ 0 < R.no_readings_timeout_ ∧
            X.now - R.last_reading_time_ > R.no_readings_timeout_ := by
      intro L0 h0 R hR hRf
      have hd : (updateCostmap process L0).current_ = true := by
        rw [updateCostmap_current process hcur, h0]
      unfold updateBounds_current at hR
      split_ifs at hR with h1 h2 h3
      · rw [hR] at hRf
        simp at hRf
      · rw [hR]
        exact ⟨by simpa using h1, h2, h3.1, h3.2⟩
      · rw [hR] at hRf
        simp only at hRf
        rw [hd] at hRf
        simp at hRf
      · rw [hR] at hRf
        simp only at hRf
        rw [hd] at hRf
        simp at hRf
    refine hL0 (if X.isRolling = true then
        { L with
          costmap_ := (X.updateOrigin L (robot_x - X.getSizeInMetersX L / 2)
            (robot_y - X.getSizeInMetersY L / 2)).1
          origin_x_ := (X.updateOrigin L (robot_x - X.getSizeInMetersX L / 2)
            (robot_y - X.getSizeInMetersY L / 2)).2.1
          origin_y_ := (X.updateOrigin L (robot_x - X.getSizeInMetersX L / 2)
            (robot_y - X.getSizeInMetersY L / 2)).2.2 }
      else L) ?_ _ rfl hfalse
    split_ifs <;> exact hc
  · intro master_grid min_i min_j max_i max_j
    unfold updateCosts
    split_ifs
    · exact hc
    · rfl
  · rfl
  · intro config
    by_cases h : L.enabled_ = config.enabled
    · simp [reconfigureCB, h, hc]
    · simp [reconfigureCB, h]
  · intro fuel range_message clear_sensor_cone L1 hwait h
    obtain ⟨h1, h2, h3, _⟩ :=
      updateCostmap_reading_accepted E X fuel L L1 range_message clear_sensor_cone hwait h
    exact ⟨h1, h2, by rw [h3, hc]⟩

/-- C12 as the code has it, at a concrete input: the example layer is current;
a detection of range 2 reaches the end of the per-reading update, which sets
the last-reading time to the current time 100 and the counter to 1. -/
theorem current_flag_transitions_witness :
    ∃ L1 : RangeSensorLayer,
      updateCostmap_reading exampleEnv (exampleExt (1 / 2) (1 / 2)) 10 (exampleLayer 127)
        (exampleDetection 1) false = some L1 ∧
      L1.last_reading_time_ = 100 ∧ L1.buffered_readings_ = 1 ∧ L1.current_ = true := by
  have hs : (updateCostmap_reading exampleEnv (exampleExt (1 / 2) (1 / 2)) 10 (exampleLayer 127)
      (exampleDetection 1) false).isSome = true := by decide!
  obtain ⟨L1, h1⟩ := Option.isSome_iff_exists.mp hs
  exact ⟨L1, h1, (current_flag_transitions exampleEnv (exampleExt (1 / 2) (1 / 2))
    (exampleLayer 127) rfl).2.2.2.2 10 (exampleDetection 1) false L1 rfl h1⟩

/-- C12 fails as stated: `reconfigureCB` with `config.enabled = false` on an
enabled, current layer whose reading counter is 3 and whose timeout is 0 sets
`current_` to false. -/
theorem current_flag_transitions_counterexample :
    ({ exampleLayer 0 with buffered_readings_ := 3 } : RangeSensorLayer).current_ = true ∧
    ({ exampleLayer 0 with buffered_readings_ := 3 } : RangeSensorLayer).buffered_readings_ = 3 ∧
    ({ exampleLayer 0 with buffered_readings_ := 3 } : RangeSensorLayer).no_readings_timeout_
      = 0 ∧
    (reconfigureCB { exampleLayer 0 with buffered_readings_ := 3 }
      { exampleConfig with enabled := false }).current_ = false ∧
    (reconfigureCB { exampleLayer 0 with buffered_readings_ := 3 }
      { exampleConfig with enabled := false }).buffered_readings_ = 3 := by
  refine ⟨rfl, rfl, rfl, ?_, ?_⟩ <;> simp [reconfigureCB, exampleLayer, exampleConfig]

/-! ## The merge rule of `updateCosts` -/

theorem updateCosts_cell_eq (costmap_ : Nat → Nat) (clear mark it : Nat)
    (master_array : Nat → Nat) (k : Nat) :
    updateCosts_cell costmap_ clear mark it master_array k
      = if k = it then updateCosts_value clear mark (costmap_ it) (master_array it)
        else master_array k := by
  unfold updateCosts_cell updateCosts_value
  by_cases hk : k = it
  · subst hk
    simp only [if_true]
    split_ifs <;> simp
  · simp only [hk, if_false]
    split_ifs <;> simp [hk]

theorem updateCosts_value_idem (clear mark prob old_cost : Nat) :
    updateCosts_value clear mark prob (updateCosts_value clear mark prob old_cost)
      = updateCosts_value clear mark prob old_cost := by
  unfold updateCosts_value
  simp only [NO_INFORMATION, LETHAL_OBSTACLE, FREE_SPACE]
  split_ifs <;> simp_all

theorem updateCosts_row_pres (costmap_ : Nat → Nat) (clear mark k : Nat) (S : Nat → Prop)
    (hS : ∀ v, S v → S (updateCosts_value clear mark (costmap_ k) v)) :
    ∀ (n it : Nat) (master_array : Nat → Nat), S (master_array k) →
      S (updateCosts_row costmap_ clear mark n it master_array k) := by
  intro n
  induction n with
  | zero => intro it master_array h; simpa [updateCosts_row] using h
  | succ n ih =>
    intro it master_array h
    simp only [updateCosts_row]
    apply ih
    rw [updateCosts_cell_eq]
    split_ifs with hk
    · subst hk
      exact hS _ h
    · exact h

theorem updateCosts_rows_pres (costmap_ : Nat → Nat) (clear mark span : Nat)
    (min_i max_i : Int) (k : Nat) (S : Nat → Prop)
    (hS : ∀ v, S v → S (updateCosts_value clear mark (costmap_ k) v)) :
    ∀ (n : Nat) (j : Int) (master_array : Nat → Nat), S (master_array k) →
      S (updateCosts_rows costmap_ clear mark span min_i max_i n j master_array k) := by
  intro n
  induction n with
  | zero => intro j master_array h; simpa [updateCosts_rows] using h
  | succ n ih =>
    intro j master_array h
    simp only [updateCosts_rows]
    exact ih _ _ (updateCosts_row_pres costmap_ clear mark k S hS _ _ _ h)

theorem updateCosts_row_visit (costmap_ : Nat → Nat) (clear mark k v0 : Nat) :
    ∀ (n it : Nat) (master_array : Nat → Nat),
      (master_array k = v0 ∨ master_array k = updateCosts_value clear mark (costmap_ k) v0) →
      it < 2 ^ 32 → (∃ t : Nat, t < n ∧ k = (it + t) % 2 ^ 32) →
      updateCosts_row costmap_ clear mark n it master_array k
        = updateCosts_value clear mark (costmap_ k) v0 := by
  intro n
  induction n with
  | zero =>
    intro it master_array _ _ hv
    obtain ⟨t, ht, _⟩ := hv
    omega
  | succ n ih =>
    intro it master_array h hit hv
    obtain ⟨t, ht, hk⟩ := hv
    simp only [updateCosts_row]
    rcases Nat.eq_zero_or_pos t with h0 | hpos
    · subst h0
      have hki : k = it := by omega
      apply updateCosts_row_pres costmap_ clear mark k
        (fun v => v = updateCosts_value clear mark (costmap_ k) v0)
      · intro v hv
        rw [hv]
        exact updateCosts_value_idem _ _ _ _
      · rw [updateCosts_cell_eq, if_pos hki, ← hki]
        rcases h with h | h
        · rw [h]
        · rw [h]
          exact updateCosts_value_idem _ _ _ _
    · apply ih
      · rw [updateCosts_cell_eq]
        split_ifs with hki
        · right
          rw [← hki]
          rcases h with h | h
          · rw [h]
          · rw [h]
            exact updateCosts_value_idem _ _ _ _
        · exact h
      · exact Nat.mod_lt _ (by norm_num)
      · exact ⟨t - 1, by omega, by omega⟩

theorem updateCosts_rows_visit (costmap_ : Nat → Nat) (clear mark span : Nat)
    (min_i max_i : Int) (k v0 : Nat) :
    ∀ (n : Nat) (j : Int) (master_array : Nat → Nat),
      (master_array k = v0 ∨ master_array k = updateCosts_value clear mark (costmap_ k) v0) →
      (∃ (r t : Nat), r < n ∧ t < (max_i - min_i).toNat ∧
        k = ((((j + r) * (span : Int) + min_i) % 2 ^ 32).toNat + t) % 2 ^ 32) →
      updateCosts_rows costmap_ clear mark span min_i max_i n j master_array k
        = updateCosts_value clear mark (costmap_ k) v0 := by
  intro n
  induction n with
  | zero =>
    intro j master_array _ hv
    obtain ⟨r, t, hr, _⟩ := hv
    omega
  | succ n ih =>
    intro j master_array h hv
    obtain ⟨r, t, hr, ht, hk⟩ := hv
    simp only [updateCosts_rows]
    rcases Nat.eq_zero_or_pos r with h0 | hpos
    · subst h0
      apply updateCosts_rows_pres costmap_ clear mark span min_i max_i k
        (fun v => v = updateCosts_value clear mark (costmap_ k) v0)
      · intro v hv
        rw [hv]
        exact updateCosts_value_idem _ _ _ _
      · apply updateCosts_row_visit costmap_ clear mark k v0 _ _ _ h
        · have := Int.emod_lt_of_pos (j * (span : Int) + min_i)
            (show (0 : Int) < 2 ^ 32 by norm_num)
          omega
        · refine ⟨t, ht, ?_⟩
          simpa using hk
    · apply ih
      · apply updateCosts_row_pres costmap_ clear mark k
          (fun v => v = v0 ∨ v = updateCosts_value clear mark (costmap_ k) v0)
        · intro v hv
          right
          rcases hv with hv | hv
          · rw [hv]
          · rw [hv]
            exact updateCosts_value_idem _ _ _ _
        · exact h
      · refine ⟨r - 1, t, by omega, ht, ?_⟩
        have e : j + 1 + ((r - 1 : Nat) : Int) = j + (r : Int) := by omega
        rw [e]
        exact hk

/-- The master cell with index `j * span + i` of a cell `(i, j)` of the window
holds after `updateCosts` the value `updateCosts_value` of its old value and of
what the layer stores at that index. -/
theorem updateCosts_window (E : Env) (L : RangeSensorLayer) (master_grid : Costmap2D)
    (min_i min_j max_i max_j i j : Int) (he : L.enabled_ = true)
    (hi0 : min_i ≤ i) (hi1 : i < max_i) (hj0 : min_j ≤ j) (hj1 : j < max_j) :
    (updateCosts E L master_grid min_i min_j max_i max_j).2.costmap_
        ((j * (master_grid.size_x_ : Int) + i) % 2 ^ 32).toNat
      = updateCosts_value (E.to_cost L.clear_threshold_) (E.to_cost L.mark_threshold_)
          (L.costmap_ ((j * (master_grid.size_x_ : Int) + i) % 2 ^ 32).toNat)
          (master_grid.costmap_ ((j * (master_grid.size_x_ : Int) + i) % 2 ^ 32).toNat) := by
  unfold updateCosts
  simp only [he, Bool.true_eq_false, if_false]
  apply updateCosts_rows_visit
  · left
    rfl
  · refine ⟨(j - min_j).toNat, (i - min_i).toNat, by omega, by omega, ?_⟩
    have e : min_j + (((j - min_j).toNat : Nat) : Int) = j := by omega
    rw [e]
    generalize j * (master_grid.size_x_ : Int) = A
    omega

/-- A master cell whose index the loops do not change in value:
`updateCosts` leaves every cell at its old value or at `updateCosts_value` of
it. -/
theorem updateCosts_any (E : Env) (L : RangeSensorLayer) (master_grid : Costmap2D)
    (min_i min_j max_i max_j : Int) (k : Nat) :
    (updateCosts E L master_grid min_i min_j max_i max_j).2.costmap_ k
        = master_grid.costmap_ k ∨
    (updateCosts E L master_grid min_i min_j max_i max_j).2.costmap_ k
        = updateCosts_value (E.to_cost L.clear_threshold_) (E.to_cost L.mark_threshold_)
            (L.costmap_ k) (master_grid.costmap_ k) := by
  unfold updateCosts
  by_cases he : L.enabled_ = false
  · left
    simp [he]
  · simp only [he, if_false]
    apply updateCosts_rows_pres L.costmap_ _ _ _ _ _ k
      (fun v => v = master_grid.costmap_ k ∨
        v = updateCosts_value (E.to_cost L.clear_threshold_) (E.to_cost L.mark_threshold_)
          (L.costmap_ k) (master_grid.costmap_ k))
    · intro v hv
      right
      rcases hv with hv | hv
      · rw [hv]
      · rw [hv]
        exact updateCosts_value_idem _ _ _ _
    · left
      rfl

/-- C13: in `updateCosts` of an enabled layer, for every cell `(i, j)` of the
window, with `it` the index of the cell, `prob` the stored value and `old` the
old master value: when `prob` is not 255 and above the mark cost, the master
cell becomes 254 if `old = 255` or `old < 254` and keeps `old` otherwise; when
`prob` is not 255, not above the mark cost and below the clear cost, it becomes
0 if `old = 255` or `old < 0` and keeps `old` otherwise.  So a resolved obstacle
overwrites `FREE_SPACE` and `NO_INFORMATION`, and a resolved free value
overwrites `NO_INFORMATION` and nothing else. -/
theorem updateCosts_merge_rule (E : Env) (L : RangeSensorLayer) (master_grid : Costmap2D)
    (min_i min_j max_i max_j i j : Int) (he : L.enabled_ = true)
    (hi0 : min_i ≤ i) (hi1 : i < max_i) (hj0 : min_j ≤ j) (hj1 : j < max_j) :
    (L.costmap_ ((j * (master_grid.size_x_ : Int) + i) % 2 ^ 32).toNat ≠ NO_INFORMATION →
      L.costmap_ ((j * (master_grid.size_x_ : Int) + i) % 2 ^ 32).toNat
        > E.to_cost L.mark_threshold_ →
      (updateCosts E L master_grid min_i min_j max_i max_j).2.costmap_
          ((j * (master_grid.size_x_ : Int) + i) % 2 ^ 32).toNat
        = (if master_grid.costmap_ ((j * (master_grid.size_x_ : Int) + i) % 2 ^ 32).toNat
              = NO_INFORMATION
            ∨ master_grid.costmap_ ((j * (master_grid.size_x_ : Int) + i) % 2 ^ 32).toNat
              < LETHAL_OBSTACLE
          then LETHAL_OBSTACLE
          else master_grid.costmap_ ((j * (master_grid.size_x_ : Int) + i) % 2 ^ 32).toNat) ∧
      (master_grid.costmap_ ((j * (master_grid.size_x_ : Int) + i) % 2 ^ 32).toNat
          = FREE_SPACE
        ∨ master_grid.costmap_ ((j * (master_grid.size_x_ : Int) + i) % 2 ^ 32).toNat
          = NO_INFORMATION →
        (updateCosts E L master_grid min_i min_j max_i max_j).2.costmap_
          ((j * (master_grid.size_x_ : Int) + i) % 2 ^ 32).toNat = LETHAL_OBSTACLE)) ∧
    (L.costmap_ ((j * (master_grid.size_x_ : Int) + i) % 2 ^ 32).toNat ≠ NO_INFORMATION →
      ¬ L.costmap_ ((j * (master_grid.size_x_ : Int) + i) % 2 ^ 32).toNat
        > E.to_cost L.mark_threshold_ →
      L.costmap_ ((j * (master_grid.size_x_ : Int) + i) % 2 ^ 32).toNat
        < E.to_cost L.clear_threshold_ →
      (updateCosts E L master_grid min_i min_j max_i max_j).2.costmap_
          ((j * (master_grid.size_x_ : Int) + i) % 2 ^ 32).toNat
        = (if master_grid.costmap_ ((j * (master_grid.size_x_ : Int) + i) % 2 ^ 32).toNat
              = NO_INFORMATION
            ∨ master_grid.costmap_ ((j * (master_grid.size_x_ : Int) + i) % 2 ^ 32).toNat
              < FREE_SPACE
          then FREE_SPACE
          else master_grid.costmap_ ((j * (master_grid.size_x_ : Int) + i) % 2 ^ 32).toNat) ∧
      ((updateCosts E L master_grid min_i min_j max_i max_j).2.costmap_
          ((j * (master_grid.size_x_ : Int) + i) % 2 ^ 32).toNat
        ≠ master_grid.costmap_ ((j * (master_grid.size_x_ : Int) + i) % 2 ^ 32).toNat →
        master_grid.costmap_ ((j * (master_grid.size_x_ : Int) + i) % 2 ^ 32).toNat
          = NO_INFORMATION)) := by
  have hw := updateCosts_window E L master_grid min_i min_j max_i max_j i j he hi0 hi1 hj0 hj1
  generalize ((j * (master_grid.size_x_ : Int) + i) % 2 ^ 32).toNat = it at hw ⊢
  rw [hw]
  constructor
  · intro h255 hmark
    simp only [updateCosts_value, h255, hmark, if_true, if_false]
    refine ⟨trivial, ?_⟩
    rintro (h | h) <;> simp [h, FREE_SPACE, NO_INFORMATION, LETHAL_OBSTACLE]
  · intro h255 hmark hclear
    simp only [updateCosts_value, h255, hmark, hclear, if_true, if_false]
    refine ⟨trivial, ?_⟩
    intro hne
    by_contra hold
    apply hne
    simp [hold, FREE_SPACE]

/-- C13 at a concrete input: the layer stores 250 (above the mark cost 203) in
every cell; the master cell of the window cell (1, 1), index 5, held
`FREE_SPACE` and becomes `LETHAL_OBSTACLE`. -/
theorem updateCosts_merge_rule_witness :
    (updateCosts exampleEnv (exampleLayer 250) (exampleMaster 0) 0 0 4 4).2.costmap_ 5
      = LETHAL_OBSTACLE :=
  ((updateCosts_merge_rule exampleEnv (exampleLayer 250) (exampleMaster 0) 0 0 4 4 1 1 rfl
    (by norm_num) (by norm_num) (by norm_num) (by norm_num)).1 (by decide!) (by decide!)).2
    (Or.inl rfl)

/-! ## Cells at the initial midpoint value -/

/-- C14 as the code has it: a layer cell that holds `to_cost(0.5)` is skipped by
`updateCosts`, its master cell unchanged, when `to_cost(0.5)` is neither above
the mark cost `to_cost(mark_threshold_)` nor below the clear cost
`to_cost(clear_threshold_)`. -/
theorem updateCosts_midpoint_skipped (E : Env) (L : RangeSensorLayer) (master_grid : Costmap2D)
    (min_i min_j max_i max_j : Int) (k : Nat)
    (hcell : L.costmap_ k = E.to_cost (1 / 2))
    (hclear : E.to_cost L.clear_threshold_ ≤ E.to_cost (1 / 2))
    (hmark : E.to_cost (1 / 2) ≤ E.to_cost L.mark_threshold_) :
    (updateCosts E L master_grid min_i min_j max_i max_j).2.costmap_ k
      = master_grid.costmap_ k := by
  rcases updateCosts_any E L master_grid min_i min_j max_i max_j k with h | h
  · exact h
  · rw [h, hcell]
    unfold updateCosts_value
    have h1 : ¬ E.to_cost (1 / 2) > E.to_cost L.mark_threshold_ := not_lt.mpr hmark
    have h2 : ¬ E.to_cost (1 / 2) < E.to_cost L.clear_threshold_ := not_lt.mpr hclear
    simp only [h1, h2, if_false]
    split_ifs <;> rfl

/-- C14 as the code has it, at a concrete input: thresholds 0.2 and 0.8 (costs
50 and 203), every layer cell at `to_cost(0.5) = 127`; the master cell 5 keeps
its `NO_INFORMATION`. -/
theorem updateCosts_midpoint_skipped_witness :
    (updateCosts exampleEnv (exampleLayer 127) (exampleMaster 255) 0 0 4 4).2.costmap_ 5 = 255 :=
  updateCosts_midpoint_skipped exampleEnv (exampleLayer 127) (exampleMaster 255) 0 0 4 4 5
    (by decide!) (by decide!) (by decide!)

/-- C14 fails as stated: with `clear_threshold_ = 0.6 < mark_threshold_ = 0.8`
(clear cost 152), a layer cell at the initial value `to_cost(0.5) = 127` is
below the clear cost, resolves to free, and its master cell (index 5, the cell
(1, 1) of the window) goes from `NO_INFORMATION` to `FREE_SPACE`. -/
theorem updateCosts_midpoint_skipped_counterexample :
    (({ exampleLayer 127 with clear_threshold_ := 6 / 10 } : RangeSensorLayer).clear_threshold_
      < ({ exampleLayer 127 with clear_threshold_ := 6 / 10 } : RangeSensorLayer).mark_threshold_
      ∧ ({ exampleLayer 127 with clear_threshold_ := 6 / 10 } : RangeSensorLayer).costmap_ 5
        = exampleEnv.to_cost (1 / 2)) ∧
    (exampleMaster 255).costmap_ 5 = NO_INFORMATION ∧
    (updateCosts exampleEnv { exampleLayer 127 with clear_threshold_ := 6 / 10 }
      (exampleMaster 255) 1 1 2 2).2.costmap_ 5 = FREE_SPACE := by
  refine ⟨⟨by decide!, by decide!⟩, rfl, by decide!⟩

/-! ## The reading buffer -/

theorem bufferIncomingRangeMsg_foldl (msgs : List Range) :
    ∀ L : RangeSensorLayer,
      msgs.foldl bufferIncomingRangeMsg L
        = { L with range_msgs_buffer_ := L.range_msgs_buffer_ ++ msgs } := by
  induction msgs with
  | nil => intro L; simp
  | cons m rest ih =>
    intro L
    simp only [List.foldl_cons]
    rw [ih]
    simp [bufferIncomingRangeMsg]

theorem processRangeMessageFunc_buffer (input_sensor_type : InputSensorType)
    (updateCostmap : GridUpdate)
    (hupd : ∀ (L : RangeSensorLayer) (m : Range) (c : Bool),
      (updateCostmap L m c).range_msgs_buffer_ = L.range_msgs_buffer_)
    (L : RangeSensorLayer) (range_message : Range) :
    (processRangeMessageFunc_ input_sensor_type updateCostmap L range_message).range_msgs_buffer_
      = L.range_msgs_buffer_ := by
  have hfix : (processFixedRangeMsg updateCostmap L range_message).range_msgs_buffer_
      = L.range_msgs_buffer_ := by
    unfold processFixedRangeMsg
    split_ifs <;> simp [hupd]
  have hvar : (processVariableRangeMsg updateCostmap L range_message).range_msgs_buffer_
      = L.range_msgs_buffer_ := by
    unfold processVariableRangeMsg
    split_ifs
    · rfl
    · rw [hupd]
      unfold syncCB
      rfl
  cases input_sensor_type with
  | VARIABLE => exact hvar
  | FIXED => exact hfix
  | ALL =>
    show (processRangeMsg updateCostmap L range_message).range_msgs_buffer_ = _
    unfold processRangeMsg
    split_ifs
    · exact hfix
    · exact hvar

theorem foldl_buffer (process : RangeSensorLayer → Range → RangeSensorLayer)
    (hproc : ∀ (L : RangeSensorLayer) (m : Range),
      (process L m).range_msgs_buffer_ = L.range_msgs_buffer_)
    (msgs : List Range) :
    ∀ L : RangeSensorLayer,
      (msgs.foldl process L).range_msgs_buffer_ = L.range_msgs_buffer_ := by
  induction msgs with
  | nil => intro L; rfl
  | cons m rest ih => intro L; simp only [List.foldl_cons]; rw [ih, hproc]

/-- C15: with the buffer a list and a per-reading update that does not touch
the buffer, after any sequence `msgs` of `bufferIncomingRangeMsg` calls the
buffer is the old buffer followed by `msgs`; one `updateCostmap()` then calls
the processing function once on each buffered reading, first to last, starting
from the layer with the buffer emptied; the buffer is empty afterwards; and a
second `updateCostmap()` changes nothing. -/
theorem updateCostmap_drains (input_sensor_type : InputSensorType)
    (updateCostmap_msg : GridUpdate) (L : RangeSensorLayer) (msgs : List Range)
    (hupd : ∀ (L1 : RangeSensorLayer) (m : Range) (c : Bool),
      (updateCostmap_msg L1 m c).range_msgs_buffer_ = L1.range_msgs_buffer_) :
    (msgs.foldl bufferIncomingRangeMsg L).range_msgs_buffer_ = L.range_msgs_buffer_ ++ msgs ∧
    updateCostmap (processRangeMessageFunc_ input_sensor_type updateCostmap_msg)
        (msgs.foldl bufferIncomingRangeMsg L)
      = (L.range_msgs_buffer_ ++ msgs).foldl
          (processRangeMessageFunc_ input_sensor_type updateCostmap_msg)
          { L with range_msgs_buffer_ := [] } ∧
    (updateCostmap (processRangeMessageFunc_ input_sensor_type updateCostmap_msg)
        (msgs.foldl bufferIncomingRangeMsg L)).range_msgs_buffer_ = [] ∧
    updateCostmap (processRangeMessageFunc_ input_sensor_type updateCostmap_msg)
        (updateCostmap (processRangeMessageFunc_ input_sensor_type updateCostmap_msg)
          (msgs.foldl bufferIncomingRangeMsg L))
      = updateCostmap (processRangeMessageFunc_ input_sensor_type updateCostmap_msg)
          (msgs.foldl bufferIncomingRangeMsg L) := by
  have hproc := processRangeMessageFunc_buffer input_sensor_type updateCostmap_msg hupd
  have hempty : ∀ L0 : RangeSensorLayer,
      (updateCostmap (processRangeMessageFunc_ input_sensor_type updateCostmap_msg)
        L0).range_msgs_buffer_ = [] := by
    intro L0
    unfold updateCostmap
    rw [foldl_buffer _ hproc]
  refine ⟨?_, ?_, hempty _, ?_⟩
  · rw [bufferIncomingRangeMsg_foldl]
  · rw [bufferIncomingRangeMsg_foldl]
    rfl
  · exact updateCostmap_nil _ _ (hempty _)

/-- C15 at a concrete input: two readings are buffered; the per-reading update
counts its calls in `buffered_readings_`; after the drain the buffer is empty
and the counter is 2. -/
theorem updateCostmap_drains_witness :
    (updateCostmap (processRangeMessageFunc_ InputSensorType.ALL
        (fun L _ _ => { L with buffered_readings_ := L.buffered_readings_ + 1 }))
      ([exampleReading, exampleMaxReading].foldl bufferIncomingRangeMsg
        (exampleLayer 0))).range_msgs_buffer_ = [] :=
  (updateCostmap_drains InputSensorType.ALL
    (fun L _ _ => { L with buffered_readings_ := L.buffered_readings_ + 1 }) (exampleLayer 0)
    [exampleReading, exampleMaxReading] (fun _ _ _ => rfl)).2.2.1

/-! ## The mark at the beam target -/

theorem updateCostmap_line_keeps (X : Ext) (tx ty theta radius res : ℚ) (k v : Nat)
    (hv : v = 233) :
    ∀ (fuel : Nat) (r : ℚ) (L L1 : RangeSensorLayer),
      updateCostmap_line X tx ty theta radius res fuel r L = some L1 →
      L.costmap_ k = v → L1.costmap_ k = v := by
  intro fuel
  induction fuel with
  | zero =>
    intro r L L1 h hk
    simp only [updateCostmap_line] at h
    split_ifs at h
    · cases h
      exact hk
  | succ fuel ih =>
    intro r L L1 h hk
    simp only [updateCostmap_line] at h
    split_ifs at h
    · apply ih _ _ _ h
      simp only [setCost_int]
      split_ifs
      · exact hv.symm
      · exact hk
    · cases h
      exact hk

theorem updateCostmap_target_cost (E : Env) (L : RangeSensorLayer) (tx ty : ℚ) (aa ab : Nat)
    (h : E.worldToMap L tx ty = some (aa, ab)) :
    (updateCostmap_target E L tx ty).costmap_ (getIndex L aa ab) = 233 := by
  simp [updateCostmap_target, h, touch, setCost]

theorem updateCostmap_reading_finite (E : Env) (X : Ext) (L : RangeSensorLayer)
    (fuel : Nat) (range_message : Range) (range : ℚ) (clear_sensor_cone : Bool)
    (hwait : X.waitForTransform range_message.frame_id range_message.stamp = true)
    (hr : range_message.range = Flt.fin range) :
    updateCostmap_reading E X fuel L range_message clear_sensor_cone
      = (updateCostmap_cone E X fuel { L with max_angle_ := range_message.field_of_view / 2 }
          range_message range).bind fun c =>
          (updateCostmap_cells E X fuel c range clear_sensor_cone).map fun L6 =>
            { L6 with
              buffered_readings_ := (L6.buffered_readings_ + 1) % 2 ^ 32
              last_reading_time_ := X.now } := by
  simp [updateCostmap_reading, hwait, hr]

/-- C16 as the code has it: the step "Update Map with Target Point" sets the
cell of the beam target to 233 exactly when `worldToMap` finds the target on
the grid, and leaves the layer as it is otherwise; the step does not read
`clear_sensor_cone`, so a clearing reading makes the same mark.  The mark is
made before the cell loop: the per-reading update is the steps up to the
limited bounds followed by the cell loop, and the layer that enters the loop
holds 233 in that cell.  When the loop applies `update_cell` to a cell that
holds the mark, a non-clearing update replaces it by `to_cost` of the Bayes
update of `to_prob(233)`, and a clearing update leaves it when the cell is
outside the cone and replaces it by `to_cost(0)` when it is inside
(`to_prob(233)` not being 1). -/
theorem updateCostmap_target_marks (E : Env) (X : Ext) (L : RangeSensorLayer) :
    (∀ (tx ty : ℚ) (aa ab : Nat), E.worldToMap L tx ty = some (aa, ab) →
      getCost (updateCostmap_target E L tx ty) aa ab = 233) ∧
    (∀ tx ty : ℚ, E.worldToMap L tx ty = none → updateCostmap_target E L tx ty = L) ∧
    (∀ (fuel : Nat) (range_message : Range) (range : ℚ) (c : Cone) (aa ab : Nat),
      updateCostmap_cone E X fuel L range_message range = some c →
      E.worldToMap
          (touch L (X.transformPoint range_message.frame_id range_message.stamp 0).1
            (X.transformPoint range_message.frame_id range_message.stamp 0).2)
          (X.transformPoint range_message.frame_id range_message.stamp range).1
          (X.transformPoint range_message.frame_id range_message.stamp range).2
        = some (aa, ab) →
      getCost c.L aa ab = 233) ∧
    (∀ (fuel : Nat) (range_message : Range) (range : ℚ) (clear_sensor_cone : Bool),
      X.waitForTransform range_message.frame_id range_message.stamp = true →
      range_message.range = Flt.fin range →
      updateCostmap_reading E X fuel L range_message clear_sensor_cone
        = (updateCostmap_cone E X fuel { L with max_angle_ := range_message.field_of_view / 2 }
            range_message range).bind fun c =>
            (updateCostmap_cells E X fuel c range clear_sensor_cone).map fun L6 =>
              { L6 with
                buffered_readings_ := (L6.buffered_readings_ + 1) % 2 ^ 32
                last_reading_time_ := X.now }) ∧
    (∀ (L1 : RangeSensorLayer) (ox oy ot r nx ny : ℚ) (aa ab : Nat) (s q : ℚ),
      E.worldToMap L1 nx ny = some (aa, ab) → getCost L1 aa ab = 233 →
      sensor_model E L1 r (E.sqrt ((nx - ox) * (nx - ox) + (ny - oy) * (ny - oy)))
        (E.normalize_angle (E.atan2 (ny - oy) (nx - ox) - ot)) = some s →
      new_prob s (E.to_prob 233) = some q →
      update_cell E L1 ox oy ot r nx ny false = some (setCost L1 aa ab (E.to_cost q))) ∧
    (∀ (L1 : RangeSensorLayer) (ox oy ot r nx ny : ℚ) (aa ab : Nat),
      E.worldToMap L1 nx ny = some (aa, ab) → getCost L1 aa ab = 233 →
      (|E.normalize_angle (E.atan2 (ny - oy) (nx - ox) - ot)| > L1.max_angle_ →
        update_cell E L1 ox oy ot r nx ny true = some L1) ∧
      (|E.normalize_angle (E.atan2 (ny - oy) (nx - ox) - ot)| ≤ L1.max_angle_ →
        E.to_prob 233 ≠ 1 →
        update_cell E L1 ox oy ot r nx ny true = some (setCost L1 aa ab (E.to_cost 0)))) := by
  refine ⟨?_, ?_, ?_, ?_, ?_, ?_⟩
  · intro tx ty aa ab h
    have hg := GridOnly.target E L tx ty
    unfold GridOnly at hg
    have hs : (updateCostmap_target E L tx ty).size_x_ = L.size_x_ := by rw [hg]
    simp only [getCost, getIndex, hs]
    exact updateCostmap_target_cost E L tx ty aa ab h
  · intro tx ty h
    simp [updateCostmap_target, h]
  · intro fuel range_message range c aa ab hc hmap
    have hg := GridOnly.cone E X fuel L range_message range c hc
    unfold GridOnly at hg
    have hs : c.L.size_x_ = L.size_x_ := by rw [hg]
    have ht := updateCostmap_target_cost E _ _ _ aa ab hmap
    simp only [getIndex] at ht
    have hts : (range_sensor_layer.touch L
        (X.transformPoint range_message.frame_id range_message.stamp 0).1
        (X.transformPoint range_message.frame_id range_message.stamp 0).2).size_x_
        = L.size_x_ := rfl
    rw [hts] at ht
    simp only [getCost, getIndex, hs]
    unfold updateCostmap_cone at hc
    simp only [Option.map_eq_some'] at hc
    obtain ⟨L3, h3, hcL⟩ := hc
    have h3k : L3.costmap_ (ab * L.size_x_ + aa) = 233 := by
      split_ifs at h3
      · exact updateCostmap_line_keeps X _ _ _ _ _ _ 233 rfl _ _ _ _ h3 ht
      · cases h3
        exact ht
    rw [← hcL]
    exact h3k
  · intro fuel range_message range clear_sensor_cone hwait hr
    exact updateCostmap_reading_finite E X L fuel range_message range clear_sensor_cone hwait hr
  · intro L1 ox oy ot r nx ny aa ab s q hmap hcell hs hq
    rw [← hcell] at hq
    exact update_cell_detect E L1 ox oy ot r nx ny aa ab s q hmap hs hq
  · intro L1 ox oy ot r nx ny aa ab hmap hcell
    have h := update_cell_clear E L1 ox oy ot r nx ny aa ab hmap
    rw [hcell] at h
    exact ⟨h.1, fun hth hp => (h.2 hth hp).2⟩

/-- C16 as the code has it, at a concrete input: the target (2.5, 0.5) of the
example detection lies in cell (2, 0), and the mark step writes 233 there. -/
theorem updateCostmap_target_marks_witness :
    getCost (updateCostmap_target exampleEnv (exampleLayer 0) (5 / 2) (1 / 2)) 2 0 = 233 :=
  (updateCostmap_target_marks exampleEnv (exampleExt (1 / 2) (1 / 2)) (exampleLayer 0)).1
    (5 / 2) (1 / 2) 2 0 (by decide!)

/-- C16 fails as stated, twice.  A non-clearing detection of range 2 from
(0.5, 0.5) whose target lies in cell (2, 0): after the reading the cell holds
234, the Bayes update of the marked 233 (likelihood `0.5 + 0.5 * delta(2)` with
`tanh(1.6) = 0.9217`), not 233.  A clearing reading (range 2 equal to
`max_range`, narrow cone) from (0.5, 0.9) on a grid of zeros with the same
target cell: after the reading the cell holds the mark 233. -/
theorem updateCostmap_target_marks_counterexample :
    (exampleEnv.worldToMap (exampleLayer 127) (5 / 2) (1 / 2) = some (2, 0) ∧
      (updateCostmap_reading exampleEnv (exampleExt (1 / 2) (1 / 2)) 10 (exampleLayer 127)
        (exampleDetection 1) false).map (fun L => getCost L 2 0) = some 234) ∧
    (exampleEnv.worldToMap (exampleLayer 0) (5 / 2) (9 / 10) = some (2, 0) ∧
      getCost (exampleLayer 0) 2 0 = 0 ∧
      (updateCostmap_reading exampleEnv (exampleExt (1 / 2) (9 / 10)) 10 (exampleLayer 0)
        { exampleDetection (2 / 10) with max_range := Flt.fin 2 } true).map
          (fun L => getCost L 2 0) = some 233) := by
  refine ⟨⟨by decide!, by decide!⟩, by decide!, by decide!, by decide!⟩

/-! ## The limited bounds and the cell loop -/

/-- The step "Limit Bounds to Grid" keeps the lower bounds at or above 0 and
the upper bounds at or below the grid size, and leaves a negative upper bound
as it is. -/
theorem updateCostmap_limit_bounds (L : RangeSensorLayer) (bx0 by0 bx1 by1 : Int)
    (hx : L.size_x_ < 2 ^ 31) (hy : L.size_y_ < 2 ^ 31) :
    0 ≤ (updateCostmap_limit L bx0 by0 bx1 by1).1 ∧
    0 ≤ (updateCostmap_limit L bx0 by0 bx1 by1).2.1 ∧
    (updateCostmap_limit L bx0 by0 bx1 by1).2.2.1 ≤ (L.size_x_ : Int) ∧
    (updateCostmap_limit L bx0 by0 bx1 by1).2.2.2 ≤ (L.size_y_ : Int) ∧
    (bx1 < 0 → (updateCostmap_limit L bx0 by0 bx1 by1).2.2.1 = bx1) ∧
    (by1 < 0 → (updateCostmap_limit L bx0 by0 bx1 by1).2.2.2 = by1) := by
  have e1 : toInt32 L.size_x_ = (L.size_x_ : Int) := by unfold toInt32; omega
  have e2 : toInt32 L.size_y_ = (L.size_y_ : Int) := by unfold toInt32; omega
  simp only [updateCostmap_limit, e1, e2]
  refine ⟨le_max_left _ _, le_max_left _ _, min_le_left _ _, min_le_left _ _, ?_, ?_⟩
  · intro h
    exact min_eq_right (by omega)
  · intro h
    exact min_eq_right (by omega)

theorem updateCostmap_xs_none (E : Env) (X : Ext) (ox oy theta range : ℚ) (clear : Bool)
    (uby0 ubx1 uby1 fuel0 : Nat) (hub : ubx1 = 2 ^ 32 - 1) :
    ∀ (fuel x : Nat) (L : RangeSensorLayer), x < 2 ^ 32 →
      updateCostmap_xs E X ox oy theta range clear uby0 ubx1 uby1 fuel0 fuel x L = none := by
  intro fuel
  induction fuel with
  | zero =>
    intro x L hx
    have hle : x ≤ ubx1 := by omega
    simp [updateCostmap_xs, hle]
  | succ fuel ih =>
    intro x L hx
    have hle : x ≤ ubx1 := by omega
    simp only [updateCostmap_xs, hle, if_true]
    cases updateCostmap_ys E X ox oy theta range clear x uby1 fuel0 uby0 L with
    | none => rfl
    | some L1 => exact ih _ L1 (Nat.mod_lt _ (by norm_num))

theorem updateCostmap_cells_never_end_aux (E : Env) (X : Ext) (c : Cone) (range : ℚ)
    (clear : Bool) (hb : c.bx1 = -1) :
    ∀ fuel : Nat, updateCostmap_cells E X fuel c range clear = none := by
  have hu : toUInt32 c.bx1 = 2 ^ 32 - 1 := by
    rw [hb]
    decide
  intro fuel
  unfold updateCostmap_cells
  apply updateCostmap_xs_none _ _ _ _ _ _ _ _ _ _ _ hu
  unfold toUInt32
  have := Int.emod_lt_of_pos c.bx0 (show (0 : Int) < 2 ^ 32 by norm_num)
  omega

/-- C17, the failing case: when the limited upper bound `bx1` is -1 (the origin
and both cone edges lie in the cell column left of the grid), the cast
`(unsigned int)bx1` is `2 ^ 32 - 1`, the test `x <= (unsigned int)bx1` holds for
every 32-bit `x`, and the cell loop does not end, whatever number of passes it
is given. -/
theorem updateCostmap_cells_never_end (E : Env) (X : Ext) (c : Cone) (range : ℚ)
    (clear : Bool) (hb : c.bx1 = -1) :
    toUInt32 c.bx1 = 2 ^ 32 - 1 ∧
      ∀ fuel : Nat, updateCostmap_cells E X fuel c range clear = none := by
  have hu : toUInt32 c.bx1 = 2 ^ 32 - 1 := by
    rw [hb]
    decide
  exact ⟨hu, updateCostmap_cells_never_end_aux E X c range clear hb⟩

/-- C17 at the failing input: a reading of range 0.1 from the sensor at
(-1.5, 0.5), left of the 4 by 4 grid at the origin.  The bounds computed by the
code have `bx1 = -1`, within `bx1 <= size_x`, and the cell loop given a million
passes does not end. -/
theorem updateCostmap_cells_never_end_witness :
    ∃ c : Cone,
      updateCostmap_cone exampleEnv (exampleExt (-3 / 2) (1 / 2)) 10 (exampleLayer 127)
        exampleCloseReading (1 / 10) = some c ∧
      c.bx1 = -1 ∧
      updateCostmap_cells exampleEnv (exampleExt (-3 / 2) (1 / 2)) 1000000 c (1 / 10) false
        = none := by
  have hs : (updateCostmap_cone exampleEnv (exampleExt (-3 / 2) (1 / 2)) 10 (exampleLayer 127)
      exampleCloseReading (1 / 10)).isSome = true := by decide!
  obtain ⟨c, hc⟩ := Option.isSome_iff_exists.mp hs
  have hb : (updateCostmap_cone exampleEnv (exampleExt (-3 / 2) (1 / 2)) 10 (exampleLayer 127)
      exampleCloseReading (1 / 10)).map (fun c => c.bx1) = some (-1) := by decide!
  rw [hc] at hb
  have hb1 : c.bx1 = -1 := by simpa using hb
  exact ⟨c, hc, hb1,
    (updateCostmap_cells_never_end exampleEnv (exampleExt (-3 / 2) (1 / 2)) c (1 / 10) false
      hb1).2 1000000⟩

/-- The reading of C17's failing input never reaches the end of the
per-reading update: for every number of passes given to its loops the result
is `none`. -/
theorem updateCostmap_reading_never_ends (fuel : Nat) :
    updateCostmap_reading exampleEnv (exampleExt (-3 / 2) (1 / 2)) fuel (exampleLayer 127)
      exampleCloseReading false = none := by
  rw [updateCostmap_reading_finite exampleEnv (exampleExt (-3 / 2) (1 / 2)) (exampleLayer 127)
    fuel exampleCloseReading (1 / 10) false rfl rfl]
  cases hcone : updateCostmap_cone exampleEnv (exampleExt (-3 / 2) (1 / 2)) fuel
      { exampleLayer 127 with max_angle_ := exampleCloseReading.field_of_view / 2 }
      exampleCloseReading (1 / 10) with
  | none => rfl
  | some c =>
    have hcond : ¬ (Flt.ge (Flt.fin (1 / 10)) (Flt.fin CLOSE_DISTANCE) = true
        ∧ Flt.lt (Flt.fin (1 / 10)) exampleCloseReading.max_range = true) := by decide!
    have hb : c.bx1 = -1 := by
      unfold updateCostmap_cone at hcone
      simp only [hcond, if_false, Option.map_some', Option.some.injEq] at hcone
      rw [← hcone]
      decide!
    simp only [Option.some_bind,
      (updateCostmap_cells_never_end_aux exampleEnv (exampleExt (-3 / 2) (1 / 2)) c (1 / 10)
        false hb) fuel, Option.map_none']

/-! ## Reconfiguration -/

/-- C18, what the code does: after `reconfigureCB(config)` the members
`phi_v_`, `max_angle_`, `no_readings_timeout_`, `mark_threshold_` and
`clear_on_max_reading_` hold the configured values, and `clear_threshold_`
holds what it held before: `reconfigureCB` does not assign it, so the clear
cost of `updateCosts` is `to_cost` of the old `clear_threshold_`. -/
theorem reconfigureCB_fields (L : RangeSensorLayer) (config : RangeSensorLayerConfig) :
    (reconfigureCB L config).phi_v_ = config.phi ∧
    (reconfigureCB L config).max_angle_ = config.max_angle ∧
    (reconfigureCB L config).no_readings_timeout_ = config.no_readings_timeout ∧
    (reconfigureCB L config).mark_threshold_ = config.mark_threshold ∧
    (reconfigureCB L config).clear_on_max_reading_ = config.clear_on_max_reading ∧
    (reconfigureCB L config).clear_threshold_ = L.clear_threshold_ := by
  by_cases h : L.enabled_ = config.enabled <;> simp [reconfigureCB, h]

/-- C18 at the failing input: the layer has `clear_threshold_ = 0.6` and the
configuration asks for 0.2.  After `reconfigureCB` the member is still 0.6, not
the configured 0.2, and `updateCosts` resolves a cell storing 127 (below
`to_cost(0.6) = 152`, not below `to_cost(0.2) = 50`) to free: the master cell 5
goes from `NO_INFORMATION` to `FREE_SPACE`. -/
theorem reconfigureCB_fields_witness :
    (reconfigureCB { exampleLayer 127 with clear_threshold_ := 6 / 10 }
        exampleConfig).clear_threshold_ = 6 / 10 ∧
    exampleConfig.clear_threshold = 2 / 10 ∧
    exampleEnv.to_cost (6 / 10) = 152 ∧ exampleEnv.to_cost (2 / 10) = 50 ∧
    (updateCosts exampleEnv
      (reconfigureCB { exampleLayer 127 with clear_threshold_ := 6 / 10 } exampleConfig)
      (exampleMaster 255) 1 1 2 2).2.costmap_ 5 = FREE_SPACE :=
  ⟨(reconfigureCB_fields { exampleLayer 127 with clear_threshold_ := 6 / 10 }
      exampleConfig).2.2.2.2.2, rfl, by decide!, by decide!, by decide!⟩

/-! ## The range of the sensor model -/

theorem gamma_unit (L : RangeSensorLayer) (theta : ℚ) (hmax : 0 < L.max_angle_) :
    ∃ g : ℚ, gamma L theta = some g ∧ 0 ≤ g ∧ g ≤ 1 := by
  by_cases h : |theta| > L.max_angle_
  · exact ⟨0, gamma_outside L theta h, le_refl _, by norm_num⟩
  · have hle : |theta| ≤ L.max_angle_ := not_lt.mp h
    refine ⟨_, gamma_inside L theta hmax hle, ?_, ?_⟩
    · have habs : |theta / L.max_angle_| ≤ 1 := by
        rw [abs_div, abs_of_pos hmax]
        exact (div_le_one hmax).mpr hle
      have := (sq_le_one_iff_abs_le_one (theta / L.max_angle_)).mpr habs
      linarith
    · have := sq_nonneg (theta / L.max_angle_)
      linarith

theorem new_prob_unit (s p : ℚ) (hs0 : 0 < s) (hs1 : s < 1) (hp0 : 0 ≤ p) (hp1 : p ≤ 1) :
    0 < s * p + (1 - s) * (1 - p) ∧
      ∃ q : ℚ, new_prob s p = some q ∧ 0 ≤ q ∧ q ≤ 1 := by
  have h1 : 0 ≤ s * p := mul_nonneg (le_of_lt hs0) hp0
  have h2 : 0 ≤ (1 - s) * (1 - p) := mul_nonneg (by linarith) (by linarith)
  have hD : 0 < s * p + (1 - s) * (1 - p) := by
    rcases eq_or_lt_of_le hp0 with h0 | h0
    · rw [← h0]
      linarith
    · have : 0 < s * p := mul_pos hs0 h0
      linarith
  refine ⟨hD, s * p / (s * p + (1 - s) * (1 - p)), ?_, ?_, ?_⟩
  · simp [new_prob, fdiv, ne_of_gt hD]
  · exact div_nonneg h1 (le_of_lt hD)
  · rw [div_le_one hD]
    linarith

theorem sensor_model_range (E : Env) (L : RangeSensorLayer) (r phi theta : ℚ)
    (hr : 0 < r) (hres : 0 < L.resolution_) (hmax : 0 < L.max_angle_) (hphi : 0 ≤ phi)
    (ht0 : -1 < E.tanh (2 * (phi - L.phi_v_))) (ht1 : E.tanh (2 * (phi - L.phi_v_)) < 1) :
    ∃ s : ℚ, sensor_model E L r phi theta = some s ∧ 0 < s ∧ s < 1 ∧
      (phi < r - L.resolution_ * r → s ≤ 1 / 2) ∧
      (¬ phi < r - L.resolution_ * r → 1 / 2 ≤ s) := by
  obtain ⟨g, hg, hg0, hg1⟩ := gamma_unit L theta hmax
  have hd : 0 < L.resolution_ * r := mul_pos hres hr
  have hdl0 : 0 < delta E L phi := by unfold delta; linarith
  have hdl1 : delta E L phi < 1 := by unfold delta; linarith
  obtain ⟨l, hl⟩ : ∃ l : ℚ, l = delta E L phi * g := ⟨_, rfl⟩
  have hl0 : 0 ≤ l := by rw [hl]; exact mul_nonneg (le_of_lt hdl0) hg0
  have hl1 : l < 1 := by
    rw [hl]
    calc delta E L phi * g ≤ delta E L phi * 1 := mul_le_mul_of_nonneg_left hg1 (le_of_lt hdl0)
      _ = delta E L phi := mul_one _
      _ < 1 := hdl1
  have hlb : (gamma L theta).map (fun g => delta E L phi * g) = some l := by
    rw [hg, hl]
    rfl
  unfold sensor_model
  simp only [hlb]
  by_cases h1 : phi ≥ 0 ∧ phi < r - 2 * L.resolution_ * r
  · refine ⟨(1 - l) * (1 / 2), ?_, ?_, ?_, ?_, ?_⟩
    · simp [h1]
    · linarith
    · linarith
    · intro _
      linarith
    · intro hn
      exfalso
      apply hn
      nlinarith [h1.2]
  · have hge : r - 2 * L.resolution_ * r ≤ phi := by
      by_contra hc
      exact h1 ⟨hphi, not_le.mp hc⟩
    by_cases h2 : phi < r - L.resolution_ * r
    · have hq0 : 0 ≤ (phi - (r - 2 * L.resolution_ * r)) / (L.resolution_ * r) :=
        div_nonneg (by linarith) (le_of_lt hd)
      have hq1 : (phi - (r - 2 * L.resolution_ * r)) / (L.resolution_ * r) < 1 := by
        rw [div_lt_one hd]
        linarith
      have hq2 : ((phi - (r - 2 * L.resolution_ * r)) / (L.resolution_ * r)) ^ 2 ≤ 1 := by
        nlinarith
      have hq3 : 0 ≤ ((phi - (r - 2 * L.resolution_ * r)) / (L.resolution_ * r)) ^ 2 :=
        sq_nonneg _
      refine ⟨l * (1 / 2) * ((phi - (r - 2 * L.resolution_ * r)) / (L.resolution_ * r)) ^ 2
          + (1 - l) * (1 / 2), ?_, ?_, ?_, ?_, ?_⟩
      · simp [h1, h2, fdiv, ne_of_gt hd]
      · nlinarith
      · nlinarith
      · intro _
        nlinarith
      · intro hn
        exact absurd h2 hn
    · by_cases h3 : phi < r + L.resolution_ * r
      · have hJ : |(r - phi) / (L.resolution_ * r)| ≤ 1 := by
          rw [abs_div, abs_of_pos hd, div_le_one hd, abs_le]
          constructor <;> linarith
        have hJ2 : ((r - phi) / (L.resolution_ * r)) ^ 2 ≤ 1 :=
          (sq_le_one_iff_abs_le_one _).mpr hJ
        have hJ0 : 0 ≤ ((r - phi) / (L.resolution_ * r)) ^ 2 := sq_nonneg _
        refine ⟨l * ((1 - (1 / 2) * ((r - phi) / (L.resolution_ * r)) ^ 2) - 1 / 2) + 1 / 2,
          ?_, ?_, ?_, ?_, ?_⟩
        · simp [h1, h2, h3, fdiv, ne_of_gt hd]
        · nlinarith
        · nlinarith
        · intro hlt
          exact absurd hlt h2
        · intro _
          nlinarith
      · refine ⟨1 / 2, ?_, by norm_num, by norm_num, ?_, ?_⟩
        · simp [h1, h2, h3]
        · intro hlt
          exact absurd hlt h2
        · intro _
          exact le_refl _

theorem new_prob_closed (s p q : ℚ) (hs0 : 0 ≤ s) (hs1 : s ≤ 1) (hp0 : 0 ≤ p) (hp1 : p ≤ 1)
    (h : new_prob s p = some q) : 0 ≤ q ∧ q ≤ 1 := by
  have h1 : 0 ≤ s * p := mul_nonneg hs0 hp0
  have h2 : 0 ≤ (1 - s) * (1 - p) := mul_nonneg (by linarith) (by linarith)
  unfold new_prob fdiv at h
  simp only at h
  split_ifs at h with hD
  cases h
  have hpos : 0 < s * p + (1 - s) * (1 - p) := lt_of_le_of_ne (by linarith) (Ne.symm hD)
  constructor
  · exact div_nonneg h1 (le_of_lt hpos)
  · rw [div_le_one hpos]
    linarith

theorem sensor_model_closed (E : Env) (L : RangeSensorLayer) (r phi theta : ℚ)
    (hr : 0 < r) (hres : 0 < L.resolution_) (hmax : 0 < L.max_angle_) (hphi : 0 ≤ phi)
    (ht0 : -1 ≤ E.tanh (2 * (phi - L.phi_v_))) (ht1 : E.tanh (2 * (phi - L.phi_v_)) ≤ 1) :
    ∃ s : ℚ, sensor_model E L r phi theta = some s ∧ 0 ≤ s ∧ s ≤ 1 ∧
      (phi < r - L.resolution_ * r → s ≤ 1 / 2) ∧
      (¬ phi < r - L.resolution_ * r → 1 / 2 ≤ s) := by
  obtain ⟨g, hg, hg0, hg1⟩ := gamma_unit L theta hmax
  have hd : 0 < L.resolution_ * r := mul_pos hres hr
  have hdl0 : 0 ≤ delta E L phi := by unfold delta; linarith
  have hdl1 : delta E L phi ≤ 1 := by unfold delta; linarith
  obtain ⟨l, hl⟩ : ∃ l : ℚ, l = delta E L phi * g := ⟨_, rfl⟩
  have hl0 : 0 ≤ l := by rw [hl]; exact mul_nonneg hdl0 hg0
  have hl1 : l ≤ 1 := by
    rw [hl]
    calc delta E L phi * g ≤ delta E L phi * 1 := mul_le_mul_of_nonneg_left hg1 hdl0
      _ = delta E L phi := mul_one _
      _ ≤ 1 := hdl1
  have hlb : (gamma L theta).map (fun g => delta E L phi * g) = some l := by
    rw [hg, hl]
    rfl
  unfold sensor_model
  simp only [hlb]
  by_cases h1 : phi ≥ 0 ∧ phi < r - 2 * L.resolution_ * r
  · refine ⟨(1 - l) * (1 / 2), ?_, ?_, ?_, ?_, ?_⟩
    · simp [h1]
    · linarith
    · linarith
    · intro _
      linarith
    · intro hn
      exfalso
      apply hn
      nlinarith [h1.2]
  · have hge : r - 2 * L.resolution_ * r ≤ phi := by
      by_contra hc
      exact h1 ⟨hphi, not_le.mp hc⟩
    by_cases h2 : phi < r - L.resolution_ * r
    · have hq0 : 0 ≤ (phi - (r - 2 * L.resolution_ * r)) / (L.resolution_ * r) :=
        div_nonneg (by linarith) (le_of_lt hd)
      have hq1 : (phi - (r - 2 * L.resolution_ * r)) / (L.resolution_ * r) < 1 := by
        rw [div_lt_one hd]
        linarith
      have hq2 : ((phi - (r - 2 * L.resolution_ * r)) / (L.resolution_ * r)) ^ 2 ≤ 1 := by
        nlinarith
      have hq3 : 0 ≤ ((phi - (r - 2 * L.resolution_ * r)) / (L.resolution_ * r)) ^ 2 :=
        sq_nonneg _
      refine ⟨l * (1 / 2) * ((phi - (r - 2 * L.resolution_ * r)) / (L.resolution_ * r)) ^ 2
          + (1 - l) * (1 / 2), ?_, ?_, ?_, ?_, ?_⟩
      · simp [h1, h2, fdiv, ne_of_gt hd]
      · nlinarith
      · nlinarith
      · intro _
        nlinarith
      · intro hn
        exact absurd h2 hn
    · by_cases h3 : phi < r + L.resolution_ * r
      · have hJ : |(r - phi) / (L.resolution_ * r)| ≤ 1 := by
          rw [abs_div, abs_of_pos hd, div_le_one hd, abs_le]
          constructor <;> linarith
        have hJ2 : ((r - phi) / (L.resolution_ * r)) ^ 2 ≤ 1 :=
          (sq_le_one_iff_abs_le_one _).mpr hJ
        have hJ0 : 0 ≤ ((r - phi) / (L.resolution_ * r)) ^ 2 := sq_nonneg _
        refine ⟨l * ((1 - (1 / 2) * ((r - phi) / (L.resolution_ * r)) ^ 2) - 1 / 2) + 1 / 2,
          ?_, ?_, ?_, ?_, ?_⟩
        · simp [h1, h2, h3, fdiv, ne_of_gt hd]
        · nlinarith
        · nlinarith
        · intro hlt
          exact absurd hlt h2
        · intro _
          nlinarith
      · refine ⟨1 / 2, ?_, by norm_num, by norm_num, ?_, ?_⟩
        · simp [h1, h2, h3]
        · intro hlt
          exact absurd hlt h2
        · intro _
          exact le_refl _

/-- C20 as the code has it: for `r > 0`, resolution `> 0`, `max_angle_ > 0`,
`phi >= 0`, every `theta` and every `phi_v_`, with `tanh` taking at
`2*(phi - phi_v_)` a value in `[-1, 1]`, `sensor_model(r, phi, theta)` is a
value `s` with `0 <= s <= 1`, at most 0.5 when `phi < r - resolution*r` and at
least 0.5 otherwise, and for every prior `p` in [0,1] a probability that
`update_cell` computes from them lies in [0,1].  Where that value of `tanh` is
strictly between -1 and 1, `0 < s < 1`, and for every prior `p` in [0,1] the
denominator `s*p + (1-s)*(1-p)` of `update_cell` is positive and `new_prob` is
a value in [0,1]. -/
theorem sensor_model_unit_interval (E : Env) (L : RangeSensorLayer) (r phi theta : ℚ)
    (hr : 0 < r) (hres : 0 < L.resolution_) (hmax : 0 < L.max_angle_) (hphi : 0 ≤ phi)
    (ht0 : -1 ≤ E.tanh (2 * (phi - L.phi_v_))) (ht1 : E.tanh (2 * (phi - L.phi_v_)) ≤ 1) :
    ∃ s : ℚ, sensor_model E L r phi theta = some s ∧ 0 ≤ s ∧ s ≤ 1 ∧
      (phi < r - L.resolution_ * r → s ≤ 1 / 2) ∧
      (¬ phi < r - L.resolution_ * r → 1 / 2 ≤ s) ∧
      (∀ p q : ℚ, 0 ≤ p → p ≤ 1 → new_prob s p = some q → 0 ≤ q ∧ q ≤ 1) ∧
      (-1 < E.tanh (2 * (phi - L.phi_v_)) → E.tanh (2 * (phi - L.phi_v_)) < 1 →
        0 < s ∧ s < 1 ∧
        ∀ p : ℚ, 0 ≤ p → p ≤ 1 →
          0 < s * p + (1 - s) * (1 - p) ∧
            ∃ q : ℚ, new_prob s p = some q ∧ 0 ≤ q ∧ q ≤ 1) := by
  obtain ⟨s, hs, hs0, hs1, hlo, hhi⟩ :=
    sensor_model_closed E L r phi theta hr hres hmax hphi ht0 ht1
  refine ⟨s, hs, hs0, hs1, hlo, hhi,
    fun p q hp0 hp1 hq => new_prob_closed s p q hs0 hs1 hp0 hp1 hq, ?_⟩
  intro hs0' hs1'
  obtain ⟨s', hs', h0, h1, _, _⟩ :=
    sensor_model_range E L r phi theta hr hres hmax hphi hs0' hs1'
  rw [hs] at hs'
  cases hs'
  exact ⟨h0, h1, fun p hp0 hp1 => new_prob_unit s p h0 h1 hp0 hp1⟩

/-- C20 as the code has it, at a concrete input: range 2, resolution 1,
`phi = 1/2`, `theta = 1/4`, on the example layer (`max_angle_ = 1/2`,
`phi_v_ = 1.2`). -/
theorem sensor_model_unit_interval_witness :
    ∃ s : ℚ, sensor_model exampleEnv (exampleLayer 0) 2 (1 / 2) (1 / 4) = some s ∧
      0 ≤ s ∧ s ≤ 1 := by
  obtain ⟨s, hs, hs0, hs1, _⟩ := sensor_model_unit_interval exampleEnv (exampleLayer 0) 2
    (1 / 2) (1 / 4) (by norm_num) (by decide!) (by decide!) (by norm_num) (by decide!)
    (by decide!)
  exact ⟨s, hs, hs0, hs1⟩

/-- C20 fails as stated: range 2, resolution 0.05, `max_angle_ = 0.5`,
`phi_v_ = 12`, `theta = 0`.  At `phi = 0.5` (ahead of the bump)
`tanh(2 * (0.5 - 12)) = tanh(-23)` is exactly -1.0, so `delta = 1`, `lbda = 1`
and the likelihood is exactly 0, not above 0; with the prior 1 the denominator
`0*1 + 1*0` is 0 and `new_prob` is `0/0`.  At `phi = 2` (in the bump) `tanh(-20)`
is exactly -1.0 and the likelihood is exactly 1, not below 1. -/
theorem sensor_model_unit_interval_counterexample :
    ((0 : ℚ) < 2 ∧
      0 < ({ exampleLayer 254 with resolution_ := 1 / 20, phi_v_ := 12 } :
        RangeSensorLayer).resolution_ ∧
      0 < ({ exampleLayer 254 with resolution_ := 1 / 20, phi_v_ := 12 } :
        RangeSensorLayer).max_angle_ ∧
      (0 : ℚ) ≤ 1 / 2) ∧
    sensor_model exampleEnv { exampleLayer 254 with resolution_ := 1 / 20, phi_v_ := 12 }
      2 (1 / 2) 0 = some 0 ∧
    (¬ ∃ s : ℚ,
      sensor_model exampleEnv { exampleLayer 254 with resolution_ := 1 / 20, phi_v_ := 12 }
        2 (1 / 2) 0 = some s ∧ 0 < s ∧ s < 1) ∧
    (0 : ℚ) * 1 + (1 - 0) * (1 - 1) = 0 ∧
    new_prob 0 1 = none ∧
    sensor_model exampleEnv { exampleLayer 254 with resolution_ := 1 / 20, phi_v_ := 12 }
      2 2 0 = some 1 := by
  have hs : sensor_model exampleEnv
      { exampleLayer 254 with resolution_ := 1 / 20, phi_v_ := 12 } 2 (1 / 2) 0 = some 0 := by
    decide!
  refine ⟨⟨by decide!, by decide!, by decide!, by decide!⟩, hs, ?_, by norm_num, by decide!,
    by decide!⟩
  rintro ⟨s, e, h0, _⟩
  rw [hs] at e
  cases e
  exact lt_irrefl _ h0

/-! ## The cells written by the per-reading update -/

/-- The two bounds-checked writes of the per-reading update, for a
`worldToMap` that returns only cells of the grid: the target mark and
`update_cell` change the char map at most at the index of a cell `(x, y)` with
`x < size_x_` and `y < size_y_`. -/
theorem checked_writes_in_grid (E : Env) (L : RangeSensorLayer)
    (hW : ∀ (wx wy : ℚ) (x y : Nat), E.worldToMap L wx wy = some (x, y) →
      x < L.size_x_ ∧ y < L.size_y_) :
    (∀ (tx ty : ℚ) (k : Nat), (updateCostmap_target E L tx ty).costmap_ k ≠ L.costmap_ k →
      ∃ x y : Nat, x < L.size_x_ ∧ y < L.size_y_ ∧ k = getIndex L x y) ∧
    (∀ (ox oy ot r nx ny : ℚ) (clear : Bool) (L1 : RangeSensorLayer) (k : Nat),
      update_cell E L ox oy ot r nx ny clear = some L1 → L1.costmap_ k ≠ L.costmap_ k →
      ∃ x y : Nat, x < L.size_x_ ∧ y < L.size_y_ ∧ k = getIndex L x y) := by
  constructor
  · intro tx ty k hk
    unfold updateCostmap_target at hk
    cases hmap : E.worldToMap L tx ty with
    | none =>
      simp only [hmap] at hk
      exact absurd rfl hk
    | some p =>
      obtain ⟨hx, hy⟩ := hW tx ty p.1 p.2 hmap
      simp only [hmap, touch, setCost] at hk
      refine ⟨p.1, p.2, hx, hy, ?_⟩
      by_contra hne
      simp [hne] at hk
  · intro ox oy ot r nx ny clear L1 k h hk
    unfold update_cell at h
    cases hmap : E.worldToMap L nx ny with
    | none =>
      simp only [hmap] at h
      cases h
      exact absurd rfl hk
    | some p =>
      obtain ⟨hx, hy⟩ := hW nx ny p.1 p.2 hmap
      simp only [hmap] at h
      split_ifs at h
      · cases h
        exact absurd rfl hk
      all_goals
        simp only [Option.bind_eq_some, Option.map_eq_some'] at h
        obtain ⟨s, _, q, _, hq⟩ := h
        rw [← hq] at hk
        simp only [setCost] at hk
        refine ⟨p.1, p.2, hx, hy, ?_⟩
        by_contra hne
        simp [hne] at hk

/-- C21, the failing case: a pass of the loop that marks the line through the
beam target (`r < radius`) converts the point with `worldToMapNoBounds` and
calls `setCost(a, b, 233)` on the result without testing `0 <= a < size_x_` or
`0 <= b < size_y_`: whatever `a` and `b` are, the loop goes on from the layer
with 233 written at the `unsigned int` index `b * size_x_ + a`, and when it
ends that index holds 233. -/
theorem updateCostmap_line_unchecked (X : Ext) (tx ty theta radius res : ℚ) (fuel : Nat)
    (r : ℚ) (L L1 : RangeSensorLayer) (hr : r < radius)
    (h : updateCostmap_line X tx ty theta radius res (fuel + 1) r L = some L1) :
    updateCostmap_line X tx ty theta radius res (fuel + 1) r L
      = updateCostmap_line X tx ty theta radius res fuel (r + res)
          (setCost_int L
            (X.worldToMapNoBounds L (tx - r * X.sin theta) (ty + r * X.cos theta)).1
            (X.worldToMapNoBounds L (tx - r * X.sin theta) (ty + r * X.cos theta)).2 233) ∧
    L1.costmap_
      ((toUInt32 (X.worldToMapNoBounds L (tx - r * X.sin theta) (ty + r * X.cos theta)).2
          * L.size_x_
        + toUInt32 (X.worldToMapNoBounds L (tx - r * X.sin theta) (ty + r * X.cos theta)).1)
        % 2 ^ 32) = 233 := by
  have hstep : updateCostmap_line X tx ty theta radius res (fuel + 1) r L
      = updateCostmap_line X tx ty theta radius res fuel (r + res)
          (setCost_int L
            (X.worldToMapNoBounds L (tx - r * X.sin theta) (ty + r * X.cos theta)).1
            (X.worldToMapNoBounds L (tx - r * X.sin theta) (ty + r * X.cos theta)).2 233) := by
    simp only [updateCostmap_line, hr, if_true]
  refine ⟨hstep, ?_⟩
  rw [hstep] at h
  apply updateCostmap_line_keeps X tx ty theta radius res _ 233 rfl _ _ _ _ h
  simp [setCost_int]

/-- C21 at the failing input: the detection of range 2 from (2.5, 0.5) on the
4 by 4 grid has its target at (4.5, 0.5), right of the grid.  The first pass
of the marking loop (`r = -2/3`) gets the cell `(4, 0)` with `4 = size_x_`, and
after the loop the index `0 * 4 + 4 = 4`, which is the cell (0, 1) of the
grid, holds 233. -/
theorem updateCostmap_line_unchecked_witness :
    (exampleExt (5 / 2) (1 / 2)).worldToMapNoBounds (exampleLayer 127)
        (9 / 2 - (-2 / 3) * (exampleExt (5 / 2) (1 / 2)).sin 0)
        (1 / 2 + (-2 / 3) * (exampleExt (5 / 2) (1 / 2)).cos 0) = (4, 0) ∧
    (exampleLayer 127).size_x_ = 4 ∧
    ∃ L1 : RangeSensorLayer,
      updateCostmap_line (exampleExt (5 / 2) (1 / 2)) (9 / 2) (1 / 2) 0 (2 / 3) 1 10 (-2 / 3)
        (exampleLayer 127) = some L1 ∧
      L1.costmap_ 4 = 233 := by
  have hs : (updateCostmap_line (exampleExt (5 / 2) (1 / 2)) (9 / 2) (1 / 2) 0 (2 / 3) 1 10
      (-2 / 3) (exampleLayer 127)).isSome = true := by decide!
  obtain ⟨L1, h1⟩ := Option.isSome_iff_exists.mp hs
  have h := (updateCostmap_line_unchecked (exampleExt (5 / 2) (1 / 2)) (9 / 2) (1 / 2) 0 (2 / 3)
    1 9 (-2 / 3) (exampleLayer 127) L1 (by norm_num) h1).2
  have hidx : (toUInt32 ((exampleExt (5 / 2) (1 / 2)).worldToMapNoBounds (exampleLayer 127)
        (9 / 2 - (-2 / 3) * (exampleExt (5 / 2) (1 / 2)).sin 0)
        (1 / 2 + (-2 / 3) * (exampleExt (5 / 2) (1 / 2)).cos 0)).2 * (exampleLayer 127).size_x_
      + toUInt32 ((exampleExt (5 / 2) (1 / 2)).worldToMapNoBounds (exampleLayer 127)
        (9 / 2 - (-2 / 3) * (exampleExt (5 / 2) (1 / 2)).sin 0)
        (1 / 2 + (-2 / 3) * (exampleExt (5 / 2) (1 / 2)).cos 0)).1) % 2 ^ 32 = 4 := by decide!
  rw [hidx] at h
  exact ⟨by decide!, rfl, L1, h1, h⟩

/-- The whole per-reading update at C21's failing input: the target is off the
grid (`worldToMap` fails), the reading is a detection with
`CLOSE_DISTANCE <= 2 < max_range`, and after it the cell (0, 1), which held
127 and lies outside the cone, holds 233. -/
theorem updateCostmap_reading_marks_off_grid :
    exampleEnv.worldToMap (exampleLayer 127) (9 / 2) (1 / 2) = none ∧
    getCost (exampleLayer 127) 0 1 = 127 ∧
    (updateCostmap_reading exampleEnv (exampleExt (5 / 2) (1 / 2)) 10 (exampleLayer 127)
      (exampleDetection 1) false).map (fun L => getCost L 0 1) = some 233 := by
  refine ⟨by decide!, by decide!, by decide!⟩

end range_sensor_layer

/-! # SocialLayer -/

namespace social_navigation_layers

/-- C19: in `SocialLayer::updateBounds`, with `b` the bounds that
`updateBoundsFromSocial` leaves in this call: on the first call
(`first_time_` true) the reported bounds are `b`; on a later call they are the
coordinate-wise union of `b` and the remembered bounds; in both cases the
bounds remembered for the next call are `b`, and `first_time_` is false
afterwards.  Hence on two consecutive calls the second reports the union of
what `updateBoundsFromSocial` produced in the two calls. -/
theorem updateBounds_union (transformPoint : String → Point → Option Point)
    (updateBoundsFromSocial : SocialLayer → ℚ × ℚ × ℚ × ℚ → ℚ × ℚ × ℚ × ℚ)
    (S : SocialLayer) (min_x min_y max_x max_y : ℚ) :
    (S.first_time_ = true →
      (updateBounds transformPoint updateBoundsFromSocial S min_x min_y max_x max_y).2
        = updateBoundsFromSocial
            { S with transformed_social_ := transformObjects transformPoint S.frame_id S.objects }
            (min_x, min_y, max_x, max_y)) ∧
    (S.first_time_ = false →
      (updateBounds transformPoint updateBoundsFromSocial S min_x min_y max_x max_y).2
        = (min S.last_min_x_ (updateBoundsFromSocial
              { S with transformed_social_ :=
                  transformObjects transformPoint S.frame_id S.objects }
              (min_x, min_y, max_x, max_y)).1,
            min S.last_min_y_ (updateBoundsFromSocial
              { S with transformed_social_ :=
                  transformObjects transformPoint S.frame_id S.objects }
              (min_x, min_y, max_x, max_y)).2.1,
            max S.last_max_x_ (updateBoundsFromSocial
              { S with transformed_social_ :=
                  transformObjects transformPoint S.frame_id S.objects }
              (min_x, min_y, max_x, max_y)).2.2.1,
            max S.last_max_y_ (updateBoundsFromSocial
              { S with transformed_social_ :=
                  transformObjects transformPoint S.frame_id S.objects }
              (min_x, min_y, max_x, max_y)).2.2.2)) ∧
    ((updateBounds transformPoint updateBoundsFromSocial S min_x min_y max_x max_y).1.last_min_x_,
      (updateBounds transformPoint updateBoundsFromSocial S min_x min_y max_x max_y).1.last_min_y_,
      (updateBounds transformPoint updateBoundsFromSocial S min_x min_y max_x max_y).1.last_max_x_,
      (updateBounds transformPoint updateBoundsFromSocial S min_x min_y max_x max_y).1.last_max_y_)
      = updateBoundsFromSocial
          { S with transformed_social_ := transformObjects transformPoint S.frame_id S.objects }
          (min_x, min_y, max_x, max_y) ∧
    (updateBounds transformPoint updateBoundsFromSocial S min_x min_y max_x max_y).1.first_time_
      = false := by
  unfold updateBounds
  refine ⟨?_, ?_, ?_, ?_⟩
  · intro h
    simp [h]
  · intro h
    simp [h]
  · cases h : S.first_time_ <;> simp [h]
  · cases h : S.first_time_ <;> simp [h]

/-- C19 at a concrete input: a first call producing the bounds (0, 0, 1, 1)
and a second call producing (2, -1, 3, 0); the second call reports their
union (0, -1, 3, 1). -/
theorem updateBounds_union_witness :
    (updateBounds (fun _ p => some p) (fun _ _ => (2, -1, 3, 0))
      (updateBounds (fun _ p => some p) (fun _ _ => (0, 0, 1, 1))
        { frame_id := "map", objects := [], transformed_social_ := [], first_time_ := true,
          last_min_x_ := 0, last_min_y_ := 0, last_max_x_ := 0, last_max_y_ := 0 }
        9 9 (-9) (-9)).1 9 9 (-9) (-9)).2 = (0, -1, 3, 1) := by
  rw [(updateBounds_union (fun _ p => some p) (fun _ _ => (2, -1, 3, 0))
      (updateBounds (fun _ p => some p) (fun _ _ => (0, 0, 1, 1))
        { frame_id := "map", objects := [], transformed_social_ := [], first_time_ := true,
          last_min_x_ := 0, last_min_y_ := 0, last_max_x_ := 0, last_max_y_ := 0 }
        9 9 (-9) (-9)).1 9 9 (-9) (-9)).2.1 rfl]
  decide!

end social_navigation_layers
